import Mathlib

/-!
Verification of ftracker: distance, mean speed and spent calories

A shallow embedding of `src/ftracker.go`.

Number model.  Go `int` arguments are mathematical integers (`Int`); the one place where
the source multiplies two `int`s (`lengthPool*countPool` in `SwimmingSpentCalories`) goes
through `wrapInt64`, the two's-complement wrap of a 64-bit product.  Go `float64`
arguments are rationals.  The functions are translated at three levels of detail.

* Exact: every operation is the exact operation on `ℚ` and `float64(n)` is the exact
  cast.  A quotient whose divisor is a *variable* is `fdiv`, which yields `none` when the
  divisor is zero (Go produces `±Inf` or `NaN` there), so the functions that divide by a
  variable return `Option ℚ`; a quotient by a non-zero literal is the plain quotient.
  The claims about guards and about which expression a function evaluates are settled
  here.
* Special values (`XFloat`, names ending in `X`): the same, with `+Inf`, `-Inf` and `NaN`
  kept as values.  `ShowTrainingInfo` is built on this level, since it prints them.
* Rounded (`roundF64`, names ending in `F64`): every conversion, constant and operation
  is rounded to `float64`.  The claims about exact identities between different
  expressions are settled here.

No level has a signed zero.
-/

namespace ftracker

/-! ## Constants (`src/ftracker.go`, lines 8-14, 82-85, 110-113, 139-142) -/

/-- Average step length, in metres. -/
def lenStep : ℚ := 0.65

/-- Metres in a kilometre. -/
def mInKm : ℚ := 1000

/-- Minutes in an hour. -/
def minInH : ℚ := 60

/-- Factor from km/h to m/s (declared by the source, used by no function). -/
def kmhInMsec : ℚ := 0.278

/-- Centimetres in a metre (declared by the source, used by no function). -/
def cmInM : ℚ := 100

/-- Multiplier of the mean speed in the running formula. -/
def runningCaloriesMeanSpeedMultiplier : ℚ := 18

/-- Shift of the mean speed in the running formula. -/
def runningCaloriesMeanSpeedShift : ℚ := 1.79

/-- Multiplier of the body weight in the walking formula. -/
def walkingCaloriesWeightMultiplier : ℚ := 0.035

/-- Multiplier of the height term in the walking formula. -/
def walkingSpeedHeightMultiplier : ℚ := 0.029

/-- Shift of the mean speed in the swimming formula. -/
def swimmingCaloriesMeanSpeedShift : ℚ := 1.1

/-- Multiplier of the weight in the swimming formula. -/
def swimmingCaloriesWeightMultiplier : ℚ := 2

/-! ## Machine arithmetic -/

/-- The value a 64-bit two's-complement register holds for the integer `x`. -/
def wrapInt64 (x : Int) : Int := (x + 2 ^ 63) % 2 ^ 64 - 2 ^ 63

/-- The integers a Go `int` (64 bits) can hold. -/
def fitsInt64 (x : Int) : Prop := -(2 ^ 63) ≤ x ∧ x < 2 ^ 63

instance (x : Int) : Decidable (fitsInt64 x) := by
  unfold fitsInt64; infer_instance

/-- A `float64` quotient by a variable: no finite number when the divisor is zero. -/
def fdiv (x y : ℚ) : Option ℚ := if y = 0 then none else some (x / y)

/-! ## The functions -/

/-- Source: `distance`, lines 21-23: `float64(action) * lenStep / mInKm`. -/
def distance (action : Int) : ℚ := (action : ℚ) * lenStep / mInKm

/-- Source: `meanSpeed`, lines 31-37. -/
def meanSpeed (action : Int) (duration : ℚ) : Option ℚ :=
  if duration = 0 then some 0
  else
    let distance := distance action
    fdiv distance duration

/-- Source: `RunningSpentCalories`, lines 94-107. -/
def RunningSpentCalories (action : Int) (weight duration : ℚ) : Option ℚ :=
  if duration ≤ 0 then some 0
  else do
    let averageSpeed ← meanSpeed action duration
    let runningCalories :=
      (runningCaloriesMeanSpeedMultiplier * averageSpeed + runningCaloriesMeanSpeedShift)
        * weight * duration * minInH
    pure runningCalories

/-- Source: `WalkingSpentCalories`, lines 123-136. -/
def WalkingSpentCalories (action : Int) (duration weight height : ℚ) : Option ℚ :=
  if duration ≤ 0 then some 0
  else do
    let averageSpeed ← fdiv ((action : ℚ) * lenStep) (duration * 3600)
    let perHeight ← fdiv (averageSpeed * averageSpeed) height
    let calories :=
      ((walkingCaloriesWeightMultiplier * weight)
        + (perHeight * walkingSpeedHeightMultiplier * weight)) * duration * minInH
    pure calories

/-- Source: `swimmingMeanSpeed`, lines 151-156. -/
def swimmingMeanSpeed (lengthPool countPool : Int) (duration : ℚ) : Option ℚ :=
  if duration = 0 then some 0
  else fdiv ((lengthPool : ℚ) * (countPool : ℚ) / mInKm) duration

/-- Source: `SwimmingSpentCalories`, lines 166-180. -/
def SwimmingSpentCalories (lengthPool countPool : Int) (duration weight : ℚ) : Option ℚ :=
  if duration ≤ 0 then some 0
  else do
    let totalDistance : ℚ := ((wrapInt64 (lengthPool * countPool) : Int) : ℚ) / 1000
    let averageSpeed ← fdiv totalDistance duration
    let swimmingCalories :=
      (averageSpeed + swimmingCaloriesMeanSpeedShift) * swimmingCaloriesWeightMultiplier
        * weight * duration
    pure swimmingCalories

/-! ## Special values

The functions above return `none` where Go returns `+Inf`, `-Inf` or `NaN`.  To print
such a result the summary needs to know which of the three it is, so the same functions
are translated a second time over `XFloat`, the finite numbers together with the three
special values, with the arithmetic of IEEE 754 on them (still without rounding and
without a signed zero: a zero divisor counts as `+0`).  The lemmas `*_toOption` below
show that the two translations agree: the `Option` result is the finite part of the
`XFloat` result. -/

/-- A `float64` value: a finite number, an infinity or `NaN`. -/
inductive XFloat where
  | fin (q : ℚ)
  | posInf
  | negInf
  | nan
  deriving DecidableEq

namespace XFloat

/-- The finite part of a value. -/
def toOption : XFloat → Option ℚ
  | fin q => some q
  | _ => none

/-- The infinity with the sign of `s`; `NaN` when `s = 0`. -/
def infOfSign (s : ℚ) : XFloat :=
  if 0 < s then posInf else if s < 0 then negInf else nan

/-- A rational with the sign of the value (`0` for a zero and for `NaN`). -/
def signOf : XFloat → ℚ
  | fin q => q
  | posInf => 1
  | negInf => -1
  | nan => 0

/-- The product: `NaN` is absorbing, an infinity times zero is `NaN`, otherwise an
infinite factor gives the infinity with the product of the signs. -/
def mul : XFloat → XFloat → XFloat
  | fin x, fin y => fin (x * y)
  | nan, _ => nan
  | _, nan => nan
  | a, b => infOfSign (signOf a * signOf b)

/-- The sum: `NaN` is absorbing, opposite infinities give `NaN`, otherwise an infinite
term wins. -/
def add : XFloat → XFloat → XFloat
  | fin x, fin y => fin (x + y)
  | nan, _ => nan
  | _, nan => nan
  | posInf, negInf => nan
  | negInf, posInf => nan
  | posInf, _ => posInf
  | _, posInf => posInf
  | negInf, _ => negInf
  | _, negInf => negInf

/-- The quotient: a finite number by zero is the infinity with the sign of the number
(`NaN` for `0 / 0`), a finite number by an infinity is `0`, an infinity by an infinity is
`NaN`, an infinity by a finite number keeps or flips its sign. -/
def div : XFloat → XFloat → XFloat
  | fin x, fin y => if y = 0 then infOfSign x else fin (x / y)
  | nan, _ => nan
  | _, nan => nan
  | fin _, _ => fin 0
  | posInf, fin y => if y < 0 then negInf else posInf
  | negInf, fin y => if y < 0 then posInf else negInf
  | _, _ => nan

instance : Mul XFloat := ⟨mul⟩

instance : Add XFloat := ⟨add⟩

instance : Div XFloat := ⟨div⟩

end XFloat

/-- Source: `distance`, lines 21-23, over `XFloat`. -/
def distanceX (action : Int) : XFloat := XFloat.fin (action : ℚ) * XFloat.fin lenStep / XFloat.fin mInKm

/-- Source: `meanSpeed`, lines 31-37, over `XFloat`. -/
def meanSpeedX (action : Int) (duration : ℚ) : XFloat :=
  if duration = 0 then XFloat.fin 0
  else
    let distance := distanceX action
    distance / XFloat.fin duration

/-- Source: `RunningSpentCalories`, lines 94-107, over `XFloat`. -/
def RunningSpentCaloriesX (action : Int) (weight duration : ℚ) : XFloat :=
  if duration ≤ 0 then XFloat.fin 0
  else
    let averageSpeed := meanSpeedX action duration
    let runningCalories :=
      (XFloat.fin runningCaloriesMeanSpeedMultiplier * averageSpeed
          + XFloat.fin runningCaloriesMeanSpeedShift) * XFloat.fin weight * XFloat.fin duration * XFloat.fin minInH
    runningCalories

/-- Source: `WalkingSpentCalories`, lines 123-136, over `XFloat`. -/
def WalkingSpentCaloriesX (action : Int) (duration weight height : ℚ) : XFloat :=
  if duration ≤ 0 then XFloat.fin 0
  else
    let averageSpeed := (XFloat.fin (action : ℚ) * XFloat.fin lenStep) / (XFloat.fin duration * XFloat.fin 3600)
    let calories :=
      ((XFloat.fin walkingCaloriesWeightMultiplier * XFloat.fin weight)
        + ((averageSpeed * averageSpeed) / XFloat.fin height * XFloat.fin walkingSpeedHeightMultiplier
            * XFloat.fin weight)) * XFloat.fin duration * XFloat.fin minInH
    calories

/-- Source: `swimmingMeanSpeed`, lines 151-156, over `XFloat`. -/
def swimmingMeanSpeedX (lengthPool countPool : Int) (duration : ℚ) : XFloat :=
  if duration = 0 then XFloat.fin 0
  else XFloat.fin (lengthPool : ℚ) * XFloat.fin (countPool : ℚ) / XFloat.fin mInKm / XFloat.fin duration

/-- Source: `SwimmingSpentCalories`, lines 166-180, over `XFloat`. -/
def SwimmingSpentCaloriesX (lengthPool countPool : Int) (duration weight : ℚ) : XFloat :=
  if duration ≤ 0 then XFloat.fin 0
  else
    let totalDistance := XFloat.fin ((wrapInt64 (lengthPool * countPool) : Int) : ℚ) / XFloat.fin 1000
    let averageSpeed := totalDistance / XFloat.fin duration
    let swimmingCalories :=
      (averageSpeed + XFloat.fin swimmingCaloriesMeanSpeedShift)
        * XFloat.fin swimmingCaloriesWeightMultiplier * XFloat.fin weight * XFloat.fin duration
    swimmingCalories

/-! ## The summary string

`fmt.Sprintf` belongs to the Go library, not to the source file: its two verbs are
modelled here.  `%s` copies the string.  `%.2f` is `formatX`: a finite number is printed
by `formatFloat2` (a signed zero, which Go prints as `-0.00`, is not a number of the
model), the special values are printed as `+Inf`, `-Inf` and `NaN`. -/

/-- The natural number nearest to the non-negative rational `q`, a tie going to the even
neighbour (the rounding the Go library applies to the exact decimal expansion). -/
def roundHalfEven (q : ℚ) : Nat :=
  let f := ⌊q⌋.toNat
  let r := q - (f : ℚ)
  if r < 1 / 2 then f
  else if 1 / 2 < r then f + 1
  else if f % 2 = 0 then f else f + 1

/-- The two decimal digits of a number of hundredths below `100`. -/
def twoDigits (m : Nat) : String :=
  if m < 10 then "0" ++ Nat.repr m else Nat.repr m

/-- The verb `%.2f` on a finite number: sign, integer part, point, two decimals. -/
def formatFloat2 (x : ℚ) : String :=
  let n := roundHalfEven (|x| * 100)
  (if x < 0 then "-" else "") ++ Nat.repr (n / 100) ++ "." ++ twoDigits (n % 100)

/-- The verb `%.2f` on any `float64` value. -/
def formatX : XFloat → String
  | XFloat.fin q => formatFloat2 q
  | XFloat.posInf => "+Inf"
  | XFloat.negInf => "-Inf"
  | XFloat.nan => "NaN"

/-- The string returned for a training type that is not recognised (line 74). -/
def unknownTrainingType : String := "неизвестный тип тренировки"

/-- The format string of line 78 with its five verbs replaced by rendered arguments. -/
def summaryLayout (trainingType duration dist speed calories : String) : String :=
  "Тип тренировки: " ++ trainingType ++ "\nДлительность: " ++ duration
    ++ " ч.\nДистанция: " ++ dist ++ " км.\nСкорость: " ++ speed
    ++ " км/ч\nСожгли калорий: " ++ calories ++ "\n"

/-- The call of `fmt.Sprintf` of line 78: `%s` for the type, `%.2f` for the four numbers. -/
def sprintfSummary (trainingType : String) (duration dist speed calories : XFloat) : String :=
  summaryLayout trainingType (formatX duration) (formatX dist) (formatX speed)
    (formatX calories)

/-- Source: `ShowTrainingInfo`, lines 57-79.  The `switch` is the chain of string
comparisons; each recognised case computes `dist`, `speed`, `calories` and falls through
to the one `fmt.Sprintf`, the `default` case returns at once. -/
def ShowTrainingInfo (action : Int) (trainingType : String) (duration weight height : ℚ)
    (lengthPool countPool : Int) : String :=
  if trainingType = "Бег" then
    let dist := distanceX action
    let speed := meanSpeedX action duration
    let calories := RunningSpentCaloriesX action weight duration
    sprintfSummary trainingType (XFloat.fin duration) dist speed calories
  else if trainingType = "Ходьба" then
    let dist := distanceX action
    let speed := meanSpeedX action duration
    let calories := WalkingSpentCaloriesX action duration weight height
    sprintfSummary trainingType (XFloat.fin duration) dist speed calories
  else if trainingType = "Плавание" then
    let dist := distanceX action
    let speed := swimmingMeanSpeedX lengthPool countPool duration
    let calories := SwimmingSpentCaloriesX lengthPool countPool duration weight
    sprintfSummary trainingType (XFloat.fin duration) dist speed calories
  else
    "неизвестный тип тренировки"

/-! ## Rounding

The claims about exact identities between *different* expressions need the rounding of
`float64`.  `roundF64` is the rounding of IEEE 754 binary64, to nearest with ties to
even: 53 significant bits, least exponent `-1022` (below it the spacing stays
`2 ^ (-1074)`), overflow to an infinity from `2 ^ 1024` on.  The functions `*F64` evaluate
the source expressions with every constant, conversion and operation rounded, one
operation at a time (no fused multiply-add).  Their rational arguments stand for
`float64` values; what is proved of every rational holds of those.  `Approx` is the
bookkeeping of the error analysis. -/

/-- The binary exponent that fixes the spacing of `float64` around `x ≠ 0`. -/
def exponentF64 (x : ℚ) : Int := max (Int.log 2 |x|) (-1022)

/-- The `float64` nearest to the rational `x`, ties to even. -/
def roundF64 (x : ℚ) : XFloat :=
  if x = 0 then XFloat.fin 0
  else
    let ulp : ℚ := (2 : ℚ) ^ (exponentF64 x - 52)
    let r : ℚ := (roundHalfEven (|x| / ulp) : ℚ) * ulp
    if (2 : ℚ) ^ (1024 : Int) ≤ r then XFloat.infOfSign x
    else XFloat.fin (if x < 0 then -r else r)

/-- The rounding of the exact result of an operation. -/
def XFloat.round : XFloat → XFloat
  | XFloat.fin q => roundF64 q
  | v => v

/-- Source: `distance`, lines 21-23, in `float64`: `float64(action) * lenStep / mInKm`. -/
def distanceF64 (action : Int) : XFloat :=
  ((roundF64 (action : ℚ) * roundF64 lenStep).round / roundF64 mInKm).round

/-- Source: `meanSpeed`, lines 31-37, in `float64`. -/
def meanSpeedF64 (action : Int) (duration : ℚ) : XFloat :=
  if duration = 0 then XFloat.fin 0
  else
    let distance := distanceF64 action
    (distance / XFloat.fin duration).round

/-- Source: the `averageSpeed` of `WalkingSpentCalories`, line 130, in `float64`:
`(float64(action) * lenStep) / (duration * 3600)`. -/
def walkingSpeedF64 (action : Int) (duration : ℚ) : XFloat :=
  ((roundF64 (action : ℚ) * roundF64 lenStep).round
      / (XFloat.fin duration * roundF64 3600).round).round

/-- Source: `WalkingSpentCalories`, lines 123-136, in `float64`. -/
def WalkingSpentCaloriesF64 (action : Int) (duration weight height : ℚ) : XFloat :=
  if duration ≤ 0 then XFloat.fin 0
  else
    let averageSpeed := walkingSpeedF64 action duration
    let calories :=
      ((((roundF64 walkingCaloriesWeightMultiplier * XFloat.fin weight).round
          + ((((averageSpeed * averageSpeed).round / XFloat.fin height).round
                * roundF64 walkingSpeedHeightMultiplier).round * XFloat.fin weight).round).round
            * XFloat.fin duration).round * roundF64 minInH).round
    calories

/-- The computed `x` stands for the exact `X` with relative error at most `α`, and the
size of `X` lies between `2 ^ p` and `2 ^ q`. -/
def Approx (α : ℚ) (p q : Int) (x X : ℚ) : Prop :=
  |x - X| ≤ α * |X| ∧ (2 : ℚ) ^ p ≤ |X| ∧ |X| ≤ (2 : ℚ) ^ q

/-! ## Shared lemmas -/

theorem fdiv_of_ne (x : ℚ) {y : ℚ} (hy : y ≠ 0) : fdiv x y = some (x / y) := by
  simp [fdiv, hy]

theorem wrapInt64_of_fits {x : Int} (hx : fitsInt64 x) : wrapInt64 x = x := by
  obtain ⟨h1, h2⟩ := hx
  unfold wrapInt64
  rw [Int.emod_eq_of_lt (by linarith) (by linarith)]
  ring

theorem distance_eq (a : Int) : distance a = (a : ℚ) * 0.65 / 1000 := by
  simp [distance, lenStep, mInKm]

theorem meanSpeed_of_ne (a : Int) {d : ℚ} (hd : d ≠ 0) :
    meanSpeed a d = some (distance a / d) := by
  simp [meanSpeed, hd, fdiv]

theorem swimmingMeanSpeed_of_ne (l c : Int) {d : ℚ} (hd : d ≠ 0) :
    swimmingMeanSpeed l c d = some ((l : ℚ) * (c : ℚ) / 1000 / d) := by
  simp [swimmingMeanSpeed, hd, fdiv, mInKm]

theorem running_of_nonpos (a : Int) (w : ℚ) {d : ℚ} (hd : d ≤ 0) :
    RunningSpentCalories a w d = some 0 := by
  simp [RunningSpentCalories, hd]

theorem walking_of_nonpos (a : Int) (w h : ℚ) {d : ℚ} (hd : d ≤ 0) :
    WalkingSpentCalories a d w h = some 0 := by
  simp [WalkingSpentCalories, hd]

theorem swimming_of_nonpos (l c : Int) (w : ℚ) {d : ℚ} (hd : d ≤ 0) :
    SwimmingSpentCalories l c d w = some 0 := by
  simp [SwimmingSpentCalories, hd]

theorem meanSpeed_val (a : Int) (d : ℚ) :
    meanSpeed a d = some (if d = 0 then 0 else distance a / d) := by
  by_cases hd : d = 0
  · simp [meanSpeed, hd]
  · simp [meanSpeed_of_ne a hd, hd]

theorem swimmingMeanSpeed_val (l c : Int) (d : ℚ) :
    swimmingMeanSpeed l c d = some (if d = 0 then 0 else (l : ℚ) * (c : ℚ) / 1000 / d) := by
  by_cases hd : d = 0
  · simp [swimmingMeanSpeed, hd]
  · simp [swimmingMeanSpeed_of_ne l c hd, hd]

theorem running_of_pos (a : Int) (w : ℚ) {d : ℚ} (hd : 0 < d) :
    RunningSpentCalories a w d = some ((18 * (distance a / d) + 1.79) * w * d * 60) := by
  have hguard : ¬ d ≤ 0 := not_le.mpr hd
  simp [RunningSpentCalories, hguard, meanSpeed_of_ne a (ne_of_gt hd),
    runningCaloriesMeanSpeedMultiplier, runningCaloriesMeanSpeedShift, minInH]

theorem walking_of_pos (a : Int) (w : ℚ) {d h : ℚ} (hd : 0 < d) (hh : h ≠ 0) :
    WalkingSpentCalories a d w h
      = some ((0.035 * w
          + (((a : ℚ) * 0.65 / (d * 3600)) * ((a : ℚ) * 0.65 / (d * 3600)) / h) * 0.029 * w)
          * d * 60) := by
  have hne : d * 3600 ≠ 0 := mul_ne_zero (ne_of_gt hd) (by norm_num)
  have hguard : ¬ d ≤ 0 := not_le.mpr hd
  simp [WalkingSpentCalories, hguard, fdiv_of_ne _ hne, fdiv_of_ne _ hh, lenStep,
    walkingCaloriesWeightMultiplier, walkingSpeedHeightMultiplier, minInH]

theorem swimming_of_pos (l c : Int) (w : ℚ) {d : ℚ} (hd : 0 < d) :
    SwimmingSpentCalories l c d w
      = some ((((wrapInt64 (l * c) : Int) : ℚ) / 1000 / d + 1.1) * 2 * w * d) := by
  have hguard : ¬ d ≤ 0 := not_le.mpr hd
  simp [SwimmingSpentCalories, hguard, fdiv_of_ne _ (ne_of_gt hd),
    swimmingCaloriesMeanSpeedShift, swimmingCaloriesWeightMultiplier]

theorem running_total (a : Int) (w d : ℚ) : ∃ r, RunningSpentCalories a w d = some r := by
  rcases le_or_lt d 0 with hd | hd
  · exact ⟨_, running_of_nonpos a w hd⟩
  · exact ⟨_, running_of_pos a w hd⟩

theorem swimming_total (l c : Int) (d w : ℚ) : ∃ r, SwimmingSpentCalories l c d w = some r := by
  rcases le_or_lt d 0 with hd | hd
  · exact ⟨_, swimming_of_nonpos l c w hd⟩
  · exact ⟨_, swimming_of_pos l c w hd⟩

theorem walking_total (a : Int) (w : ℚ) {d h : ℚ} (hh : h ≠ 0 ∨ d ≤ 0) :
    ∃ r, WalkingSpentCalories a d w h = some r := by
  rcases le_or_lt d 0 with hd | hd
  · exact ⟨_, walking_of_nonpos a w h hd⟩
  · rcases hh with hh | hh
    · exact ⟨_, walking_of_pos a w hd hh⟩
    · exact absurd hd (not_lt.mpr hh)

theorem walking_none (a : Int) (w : ℚ) {d : ℚ} (hd : 0 < d) :
    WalkingSpentCalories a d w 0 = none := by
  have hne : d * 3600 ≠ 0 := mul_ne_zero (ne_of_gt hd) (by norm_num)
  have hguard : ¬ d ≤ 0 := not_le.mpr hd
  simp [WalkingSpentCalories, hguard, fdiv_of_ne _ hne, fdiv]

theorem floor_toNat_cast {q : ℚ} (hq : 0 ≤ q) : ((⌊q⌋.toNat : Nat) : ℚ) = ((⌊q⌋ : Int) : ℚ) := by
  have h : 0 ≤ ⌊q⌋ := Int.floor_nonneg.mpr hq
  have h2 : ((⌊q⌋.toNat : Nat) : Int) = ⌊q⌋ := Int.toNat_of_nonneg h
  exact_mod_cast congrArg (fun z : Int => (z : ℚ)) h2

theorem roundHalfEven_near {q : ℚ} (hq : 0 ≤ q) : |((roundHalfEven q : Nat) : ℚ) - q| ≤ 1 / 2 := by
  have hc := floor_toNat_cast hq
  have h1 : ((⌊q⌋ : Int) : ℚ) ≤ q := Int.floor_le q
  have h2 : q < ((⌊q⌋ : Int) : ℚ) + 1 := Int.lt_floor_add_one q
  unfold roundHalfEven
  simp only []
  rw [abs_le]
  split_ifs with c1 c2 c3
  · constructor <;> linarith
  · push_cast; constructor <;> linarith
  · constructor <;> linarith
  · push_cast; constructor <;> linarith

theorem roundHalfEven_eq {q : ℚ} {n : Nat} (hq0 : 0 ≤ q) (h1 : (n : ℚ) - 1 / 2 < q)
    (h2 : q < (n : ℚ) + 1 / 2) : roundHalfEven q = n := by
  rcases le_or_lt (n : ℚ) q with hq | hq
  · have hf : ⌊q⌋ = (n : Int) := by
      rw [Int.floor_eq_iff]; push_cast; constructor <;> linarith
    have ht : ⌊q⌋.toNat = n := by rw [hf]; rfl
    unfold roundHalfEven
    simp only [ht]
    rw [if_pos (by linarith)]
  · obtain ⟨m, rfl⟩ : ∃ m, n = m + 1 := by
      cases n with
      | zero => exfalso; push_cast at hq; linarith
      | succ m => exact ⟨m, rfl⟩
    push_cast at h1 h2 hq
    have hf : ⌊q⌋ = (m : Int) := by
      rw [Int.floor_eq_iff]; push_cast; constructor <;> linarith
    have ht : ⌊q⌋.toNat = m := by rw [hf]; rfl
    unfold roundHalfEven
    simp only [ht]
    rw [if_neg (by linarith), if_pos (by linarith)]

theorem formatFloat2_eq {x : ℚ} (n : Nat) (hx : 0 ≤ x) (h1 : (n : ℚ) - 1 / 2 < x * 100)
    (h2 : x * 100 < (n : ℚ) + 1 / 2) :
    formatFloat2 x = Nat.repr (n / 100) ++ "." ++ twoDigits (n % 100) := by
  have hr : roundHalfEven (|x| * 100) = n := by
    rw [abs_of_nonneg hx]
    exact roundHalfEven_eq (mul_nonneg hx (by norm_num)) h1 h2
  have hneg : ¬ x < 0 := not_lt.mpr hx
  have he : ∀ s : String, "" ++ s = s := fun s => by
    apply String.ext; simp
  simp only [formatFloat2, hr, hneg, if_false, he]

theorem formatFloat2_spec (x : ℚ) :
    ∃ n : Nat, |(n : ℚ) - |x| * 100| ≤ 1 / 2
      ∧ formatFloat2 x
          = (if x < 0 then "-" else "") ++ Nat.repr (n / 100) ++ "." ++ twoDigits (n % 100) :=
  ⟨roundHalfEven (|x| * 100),
    roundHalfEven_near (mul_nonneg (abs_nonneg x) (by norm_num)), rfl⟩

theorem summaryLayout_shape (t n1 n2 n3 n4 : String) :
    summaryLayout t n1 n2 n3 n4 ≠ unknownTrainingType
      ∧ (∃ rest : String, summaryLayout t n1 n2 n3 n4 = "Тип тренировки: " ++ rest)
      ∧ (∃ front : String, summaryLayout t n1 n2 n3 n4 = front ++ "\n") := by
  refine ⟨?_, ?_, ?_⟩
  · intro h
    have h2 := congrArg String.data h
    simp [summaryLayout, unknownTrainingType] at h2
  · refine ⟨t ++ "\nДлительность: " ++ n1 ++ " ч.\nДистанция: " ++ n2 ++ " км.\nСкорость: "
      ++ n3 ++ " км/ч\nСожгли калорий: " ++ n4 ++ "\n", ?_⟩
    simp only [summaryLayout, String.append_assoc]
  · exact ⟨_, rfl⟩


/-! ### The two translations agree -/

theorem XFloat.fin_mul (x y : ℚ) : XFloat.fin x * XFloat.fin y = XFloat.fin (x * y) := rfl

theorem XFloat.fin_add (x y : ℚ) : XFloat.fin x + XFloat.fin y = XFloat.fin (x + y) := rfl

theorem XFloat.fin_div_of_ne (x : ℚ) {y : ℚ} (hy : y ≠ 0) :
    XFloat.fin x / XFloat.fin y = XFloat.fin (x / y) := by
  show XFloat.div _ _ = _
  simp [XFloat.div, hy]

theorem XFloat.fin_div_zero (x : ℚ) : XFloat.fin x / XFloat.fin 0 = XFloat.infOfSign x := by
  show XFloat.div _ _ = _
  simp [XFloat.div]

theorem XFloat.infOfSign_of_pos {s : ℚ} (h : 0 < s) : XFloat.infOfSign s = XFloat.posInf := by
  simp [XFloat.infOfSign, h]

theorem XFloat.infOfSign_of_neg {s : ℚ} (h : s < 0) : XFloat.infOfSign s = XFloat.negInf := by
  simp [XFloat.infOfSign, h, not_lt.mpr (le_of_lt h)]

theorem XFloat.infOfSign_zero : XFloat.infOfSign 0 = XFloat.nan := by
  simp [XFloat.infOfSign]

theorem XFloat.posInf_mul_fin (y : ℚ) : XFloat.posInf * XFloat.fin y = XFloat.infOfSign y := by
  show XFloat.mul _ _ = _
  simp [XFloat.mul, XFloat.signOf]

theorem XFloat.negInf_mul_fin (y : ℚ) :
    XFloat.negInf * XFloat.fin y = XFloat.infOfSign (-y) := by
  show XFloat.mul _ _ = _
  simp [XFloat.mul, XFloat.signOf]

theorem XFloat.nan_mul (b : XFloat) : XFloat.nan * b = XFloat.nan := by
  cases b <;> rfl

theorem XFloat.fin_add_posInf (x : ℚ) : XFloat.fin x + XFloat.posInf = XFloat.posInf := rfl

theorem XFloat.fin_add_negInf (x : ℚ) : XFloat.fin x + XFloat.negInf = XFloat.negInf := rfl

theorem XFloat.fin_add_nan (x : ℚ) : XFloat.fin x + XFloat.nan = XFloat.nan := rfl

theorem XFloat.eq_fin_of_toOption {v : XFloat} {q : ℚ} (h : v.toOption = some q) :
    v = XFloat.fin q := by
  cases v <;> simp [XFloat.toOption] at h
  rw [h]

theorem distanceX_eq (a : Int) : distanceX a = XFloat.fin (distance a) := by
  have h : mInKm ≠ 0 := by norm_num [mInKm]
  rw [distanceX, XFloat.fin_mul, XFloat.fin_div_of_ne _ h, distance]

theorem meanSpeedX_eq (a : Int) (d : ℚ) :
    meanSpeedX a d = XFloat.fin (if d = 0 then 0 else distance a / d) := by
  by_cases hd : d = 0
  · simp [meanSpeedX, hd]
  · simp only [meanSpeedX, hd, if_false, distanceX_eq, XFloat.fin_div_of_ne _ hd]

theorem meanSpeedX_toOption (a : Int) (d : ℚ) : (meanSpeedX a d).toOption = meanSpeed a d := by
  rw [meanSpeedX_eq, meanSpeed_val]; rfl

theorem swimmingMeanSpeedX_eq (l c : Int) (d : ℚ) :
    swimmingMeanSpeedX l c d
      = XFloat.fin (if d = 0 then 0 else (l : ℚ) * (c : ℚ) / 1000 / d) := by
  have h : mInKm ≠ 0 := by norm_num [mInKm]
  by_cases hd : d = 0
  · simp [swimmingMeanSpeedX, hd]
  · simp only [swimmingMeanSpeedX, hd, if_false, XFloat.fin_mul, XFloat.fin_div_of_ne _ h,
      XFloat.fin_div_of_ne _ hd]
    rfl

theorem swimmingMeanSpeedX_toOption (l c : Int) (d : ℚ) :
    (swimmingMeanSpeedX l c d).toOption = swimmingMeanSpeed l c d := by
  rw [swimmingMeanSpeedX_eq, swimmingMeanSpeed_val]; rfl

theorem RunningSpentCaloriesX_toOption (a : Int) (w d : ℚ) :
    (RunningSpentCaloriesX a w d).toOption = RunningSpentCalories a w d := by
  rcases le_or_lt d 0 with hd | hd
  · simp [RunningSpentCaloriesX, hd, running_of_nonpos a w hd, XFloat.toOption]
  · have hguard : ¬ d ≤ 0 := not_le.mpr hd
    have hne : d ≠ 0 := ne_of_gt hd
    simp only [RunningSpentCaloriesX, hguard, if_false, meanSpeedX_eq, hne, XFloat.fin_mul,
      XFloat.fin_add, XFloat.toOption, RunningSpentCalories, meanSpeed_of_ne a hne]
    rfl

theorem SwimmingSpentCaloriesX_toOption (l c : Int) (d w : ℚ) :
    (SwimmingSpentCaloriesX l c d w).toOption = SwimmingSpentCalories l c d w := by
  rcases le_or_lt d 0 with hd | hd
  · simp [SwimmingSpentCaloriesX, hd, swimming_of_nonpos l c w hd, XFloat.toOption]
  · have hguard : ¬ d ≤ 0 := not_le.mpr hd
    have hne : d ≠ 0 := ne_of_gt hd
    have h1000 : (1000 : ℚ) ≠ 0 := by norm_num
    simp only [SwimmingSpentCaloriesX, hguard, if_false, XFloat.fin_mul, XFloat.fin_add,
      XFloat.fin_div_of_ne _ h1000, XFloat.fin_div_of_ne _ hne, XFloat.toOption,
      SwimmingSpentCalories, fdiv_of_ne _ hne]
    rfl

theorem WalkingSpentCaloriesX_zero_height (a : Int) (w : ℚ) {d : ℚ} (hd : 0 < d) :
    WalkingSpentCaloriesX a d w 0
      = if a = 0 ∨ w = 0 then XFloat.nan
        else if 0 < w then XFloat.posInf else XFloat.negInf := by
  have hguard : ¬ d ≤ 0 := not_le.mpr hd
  have hne : d * 3600 ≠ 0 := mul_ne_zero (ne_of_gt hd) (by norm_num)
  have hm : (0 : ℚ) < minInH := by norm_num [minInH]
  have hk : (0 : ℚ) < walkingSpeedHeightMultiplier := by norm_num [walkingSpeedHeightMultiplier]
  simp only [WalkingSpentCaloriesX, hguard, if_false, XFloat.fin_mul,
    XFloat.fin_div_of_ne _ hne, XFloat.fin_div_zero]
  by_cases ha : a = 0
  · subst ha
    simp [XFloat.infOfSign_zero, XFloat.nan_mul, XFloat.fin_add_nan]
  · have ha2 : (a : ℚ) ≠ 0 := by exact_mod_cast ha
    have hs : (a : ℚ) * lenStep / (d * 3600) ≠ 0 :=
      div_ne_zero (mul_ne_zero ha2 (by norm_num [lenStep])) hne
    rw [XFloat.infOfSign_of_pos (mul_self_pos.mpr hs), XFloat.posInf_mul_fin,
      XFloat.infOfSign_of_pos hk, XFloat.posInf_mul_fin]
    rcases lt_trichotomy w 0 with hw | hw | hw
    · have hnw : ¬ 0 < w := not_lt.mpr (le_of_lt hw)
      rw [XFloat.infOfSign_of_neg hw, XFloat.fin_add_negInf, XFloat.negInf_mul_fin,
        XFloat.infOfSign_of_neg (by linarith), XFloat.negInf_mul_fin,
        XFloat.infOfSign_of_neg (by linarith)]
      simp [ha, ne_of_lt hw, hnw]
    · subst hw
      rw [XFloat.infOfSign_zero, XFloat.fin_add_nan, XFloat.nan_mul, XFloat.nan_mul]
      simp
    · rw [XFloat.infOfSign_of_pos hw, XFloat.fin_add_posInf, XFloat.posInf_mul_fin,
        XFloat.infOfSign_of_pos hd, XFloat.posInf_mul_fin, XFloat.infOfSign_of_pos hm]
      simp [ha, ne_of_gt hw, hw]

theorem WalkingSpentCaloriesX_toOption (a : Int) (d w h : ℚ) :
    (WalkingSpentCaloriesX a d w h).toOption = WalkingSpentCalories a d w h := by
  rcases le_or_lt d 0 with hd | hd
  · simp [WalkingSpentCaloriesX, hd, walking_of_nonpos a w h hd, XFloat.toOption]
  · have hguard : ¬ d ≤ 0 := not_le.mpr hd
    have hne : d * 3600 ≠ 0 := mul_ne_zero (ne_of_gt hd) (by norm_num)
    by_cases hh : h = 0
    · subst hh
      rw [walking_none a w hd, WalkingSpentCaloriesX_zero_height a w hd]
      split_ifs <;> rfl
    · simp only [WalkingSpentCaloriesX, hguard, if_false, XFloat.fin_mul, XFloat.fin_add,
        XFloat.fin_div_of_ne _ hne, XFloat.fin_div_of_ne _ hh, XFloat.toOption,
        WalkingSpentCalories, fdiv_of_ne _ hne, fdiv_of_ne _ hh]
      rfl

theorem show_unknown (a : Int) {t : String} (d w h : ℚ) (l c : Int)
    (h1 : t ≠ "Бег") (h2 : t ≠ "Ходьба") (h3 : t ≠ "Плавание") :
    ShowTrainingInfo a t d w h l c = "неизвестный тип тренировки" := by
  simp [ShowTrainingInfo, h1, h2, h3]

theorem show_running (a : Int) (d w h : ℚ) (l c : Int) {speed cal : ℚ}
    (hs : meanSpeed a d = some speed) (hc : RunningSpentCalories a w d = some cal) :
    ShowTrainingInfo a "Бег" d w h l c
      = summaryLayout "Бег" (formatFloat2 d) (formatFloat2 (distance a))
          (formatFloat2 speed) (formatFloat2 cal) := by
  have e1 := XFloat.eq_fin_of_toOption ((meanSpeedX_toOption a d).trans hs)
  have e2 := XFloat.eq_fin_of_toOption ((RunningSpentCaloriesX_toOption a w d).trans hc)
  simp [ShowTrainingInfo, sprintfSummary, formatX, distanceX_eq, e1, e2]

theorem show_walking (a : Int) (d w h : ℚ) (l c : Int) {speed : ℚ}
    (hs : meanSpeed a d = some speed) :
    ShowTrainingInfo a "Ходьба" d w h l c
      = summaryLayout "Ходьба" (formatFloat2 d) (formatFloat2 (distance a))
          (formatFloat2 speed) (formatX (WalkingSpentCaloriesX a d w h)) := by
  have hne : ("Ходьба" : String) ≠ "Бег" := by decide
  have e1 := XFloat.eq_fin_of_toOption ((meanSpeedX_toOption a d).trans hs)
  simp [ShowTrainingInfo, sprintfSummary, formatX, distanceX_eq, e1, hne]

theorem show_swimming (a : Int) (d w h : ℚ) (l c : Int) {speed cal : ℚ}
    (hs : swimmingMeanSpeed l c d = some speed)
    (hc : SwimmingSpentCalories l c d w = some cal) :
    ShowTrainingInfo a "Плавание" d w h l c
      = summaryLayout "Плавание" (formatFloat2 d) (formatFloat2 (distance a))
          (formatFloat2 speed) (formatFloat2 cal) := by
  have hne1 : ("Плавание" : String) ≠ "Бег" := by decide
  have hne2 : ("Плавание" : String) ≠ "Ходьба" := by decide
  have e1 := XFloat.eq_fin_of_toOption ((swimmingMeanSpeedX_toOption l c d).trans hs)
  have e2 := XFloat.eq_fin_of_toOption ((SwimmingSpentCaloriesX_toOption l c d w).trans hc)
  simp [ShowTrainingInfo, sprintfSummary, formatX, distanceX_eq, e1, e2, hne1, hne2]

theorem walking_speed_eq (a : Int) {d : ℚ} (hd : d ≠ 0) :
    (a : ℚ) * 0.65 / (d * 3600) = distance a / d * 1000 / 3600 := by
  rw [distance_eq]; field_simp; ring

theorem walking_speed_ne (a : Int) {d : ℚ} (hd : d ≠ 0) (ha : a ≠ 0) :
    (a : ℚ) * 0.65 / (d * 3600) ≠ distance a / d := by
  rw [walking_speed_eq a hd]
  intro h
  have hm : distance a / d ≠ 0 := by
    rw [distance_eq]
    have ha2 : (a : ℚ) ≠ 0 := by exact_mod_cast ha
    have h65 : (0.65 : ℚ) ≠ 0 := by norm_num
    exact div_ne_zero (div_ne_zero (mul_ne_zero ha2 h65) (by norm_num)) hd
  apply hm
  linarith

theorem swimming_eq_speed_of_fits (l c : Int) (w : ℚ) {d : ℚ} (hd : 0 < d)
    (hfit : fitsInt64 (l * c)) :
    SwimmingSpentCalories l c d w
      = some (((l : ℚ) * (c : ℚ) / 1000 / d + 1.1) * 2 * w * d) := by
  rw [swimming_of_pos l c w hd, wrapInt64_of_fits hfit]; push_cast; rfl

theorem show_shape (a : Int) {t : String} (d w h : ℚ) (l c : Int)
    (ht : t = "Бег" ∨ t = "Ходьба" ∨ t = "Плавание") :
    ∃ n1 n2 n3 n4 : String, ShowTrainingInfo a t d w h l c = summaryLayout t n1 n2 n3 n4 := by
  rcases ht with rfl | rfl | rfl
  · obtain ⟨cal, hc⟩ := running_total a w d
    exact ⟨_, _, _, _, show_running a d w h l c (meanSpeed_val a d) hc⟩
  · exact ⟨_, _, _, _, show_walking a d w h l c (meanSpeed_val a d)⟩
  · obtain ⟨cal, hc⟩ := swimming_total l c d w
    exact ⟨_, _, _, _, show_swimming a d w h l c (swimmingMeanSpeed_val l c d) hc⟩

/-! ### Rounding lemmas -/

theorem roundHalfEven_tie_even {q : ℚ} (k : Nat) (hk : k % 2 = 0) (h : q = (k : ℚ) + 1 / 2) :
    roundHalfEven q = k := by
  have hf : ⌊q⌋ = (k : Int) := by
    rw [Int.floor_eq_iff, h]; push_cast; constructor <;> linarith
  have ht : ⌊q⌋.toNat = k := by rw [hf]; rfl
  unfold roundHalfEven
  simp only [ht]
  have e : q - (k : ℚ) = 1 / 2 := by rw [h]; ring
  rw [e, if_neg (lt_irrefl _), if_neg (lt_irrefl _), if_pos hk]

theorem roundHalfEven_tie_odd {q : ℚ} (k : Nat) (hk : k % 2 = 1) (h : q = (k : ℚ) + 1 / 2) :
    roundHalfEven q = k + 1 := by
  have hf : ⌊q⌋ = (k : Int) := by
    rw [Int.floor_eq_iff, h]; push_cast; constructor <;> linarith
  have ht : ⌊q⌋.toNat = k := by rw [hf]; rfl
  unfold roundHalfEven
  simp only [ht]
  have e : q - (k : ℚ) = 1 / 2 := by rw [h]; ring
  have hk2 : ¬ k % 2 = 0 := by omega
  rw [e, if_neg (lt_irrefl _), if_neg (lt_irrefl _), if_neg hk2]

theorem log2_eq {x : ℚ} {e : Int} (hx : 0 < x) (h1 : (2 : ℚ) ^ e ≤ x) (h2 : x < (2 : ℚ) ^ (e + 1)) :
    Int.log 2 x = e := by
  apply le_antisymm
  · have h := (Int.lt_zpow_iff_log_lt (b := 2) (by norm_num) hx (x := e + 1)).mp
      (by exact_mod_cast h2)
    omega
  · exact (Int.zpow_le_iff_le_log (b := 2) (by norm_num) hx).mp (by exact_mod_cast h1)

theorem roundF64_eq_of_round {x : ℚ} (e : Int) (n : Nat) (u : ℚ) (hx : 0 < x)
    (he : -1022 ≤ e) (h1 : (2 : ℚ) ^ e ≤ x) (h2 : x < (2 : ℚ) ^ (e + 1))
    (hu : u = (2 : ℚ) ^ (e - 52)) (hr : roundHalfEven (x / u) = n)
    (hfin : (n : ℚ) * u < (2 : ℚ) ^ (1024 : Int)) :
    roundF64 x = XFloat.fin ((n : ℚ) * u) := by
  have hexp : exponentF64 x = e := by
    unfold exponentF64
    rw [abs_of_pos hx, log2_eq hx h1 h2]
    exact max_eq_left he
  have hr2 : roundHalfEven (|x| / u) = n := by rw [abs_of_pos hx]; exact hr
  unfold roundF64
  simp only [hexp, ← hu, hr2, if_neg (ne_of_gt hx), if_neg (not_le.mpr hfin),
    if_neg (not_lt.mpr (le_of_lt hx))]

theorem roundF64_eq_of_pos {x : ℚ} (e : Int) (n : Nat) (u : ℚ) (hx : 0 < x)
    (he : -1022 ≤ e) (h1 : (2 : ℚ) ^ e ≤ x) (h2 : x < (2 : ℚ) ^ (e + 1))
    (hu : u = (2 : ℚ) ^ (e - 52)) (hn1 : (n : ℚ) - 1 / 2 < x / u) (hn2 : x / u < (n : ℚ) + 1 / 2)
    (hfin : (n : ℚ) * u < (2 : ℚ) ^ (1024 : Int)) :
    roundF64 x = XFloat.fin ((n : ℚ) * u) := by
  have hu0 : 0 < u := by rw [hu]; positivity
  exact roundF64_eq_of_round e n u hx he h1 h2 hu
    (roundHalfEven_eq (le_of_lt (div_pos hx hu0)) hn1 hn2) hfin

theorem roundHalfEven_scaled {A U : ℚ} (hA : 0 ≤ A) (hU : 0 < U) :
    |((roundHalfEven (A / U) : Nat) : ℚ) * U - A| ≤ U / 2 := by
  have hnear := roundHalfEven_near (q := A / U) (div_nonneg hA (le_of_lt hU))
  have e1 : ((roundHalfEven (A / U) : Nat) : ℚ) * U - A
      = (((roundHalfEven (A / U) : Nat) : ℚ) - A / U) * U := by
    field_simp
  rw [e1, abs_mul, abs_of_pos hU]
  calc |((roundHalfEven (A / U) : Nat) : ℚ) - A / U| * U ≤ 1 / 2 * U :=
        mul_le_mul_of_nonneg_right hnear (le_of_lt hU)
    _ = U / 2 := by ring

theorem roundF64_of_small_error {y R : ℚ} (hy0 : y ≠ 0)
    (hR : R = ((roundHalfEven (|y| / (2 : ℚ) ^ (exponentF64 y - 52)) : Nat) : ℚ)
      * (2 : ℚ) ^ (exponentF64 y - 52))
    (hfin : R < (2 : ℚ) ^ (1024 : Int)) :
    roundF64 y = XFloat.fin (if y < 0 then -R else R) := by
  unfold roundF64
  simp only [if_neg hy0, ← hR, if_neg (not_le.mpr hfin)]

theorem roundF64_rel {y : ℚ} (hlo : (2 : ℚ) ^ (-1022 : Int) ≤ |y|)
    (hhi : |y| < (2 : ℚ) ^ (1023 : Int)) :
    ∃ r : ℚ, roundF64 y = XFloat.fin r ∧ |r - y| ≤ (2 : ℚ) ^ (-53 : Int) * |y| := by
  have hpos : 0 < |y| := lt_of_lt_of_le (by positivity) hlo
  have hy0 : y ≠ 0 := abs_pos.mp hpos
  have h1 : (2 : ℚ) ^ Int.log 2 |y| ≤ |y| := by
    exact_mod_cast Int.zpow_log_le_self (b := 2) (by norm_num) hpos
  have he : (-1022 : Int) ≤ Int.log 2 |y| :=
    (Int.zpow_le_iff_le_log (b := 2) (by norm_num) hpos).mp (by exact_mod_cast hlo)
  have hexp : exponentF64 y = Int.log 2 |y| := max_eq_left he
  have hu0 : (0 : ℚ) < (2 : ℚ) ^ (exponentF64 y - 52) := by positivity
  have hulp : (2 : ℚ) ^ (exponentF64 y - 52) / 2 ≤ (2 : ℚ) ^ (-53 : Int) * |y| := by
    rw [hexp, sub_eq_add_neg, zpow_add₀ (by norm_num : (2 : ℚ) ≠ 0)]
    calc (2 : ℚ) ^ Int.log 2 |y| * (2 : ℚ) ^ (-52 : Int) / 2
        = (2 : ℚ) ^ (-53 : Int) * (2 : ℚ) ^ Int.log 2 |y| := by norm_num; ring
      _ ≤ (2 : ℚ) ^ (-53 : Int) * |y| := mul_le_mul_of_nonneg_left h1 (by positivity)
  obtain ⟨R, hR⟩ : ∃ R : ℚ, R
      = ((roundHalfEven (|y| / (2 : ℚ) ^ (exponentF64 y - 52)) : Nat) : ℚ)
        * (2 : ℚ) ^ (exponentF64 y - 52) := ⟨_, rfl⟩
  have herr : |R - (|y|)| ≤ (2 : ℚ) ^ (-53 : Int) * |y| := by
    rw [hR]
    exact le_trans (roundHalfEven_scaled (abs_nonneg y) hu0) hulp
  have hfin : R < (2 : ℚ) ^ (1024 : Int) := by
    have h3 := (abs_le.mp herr).2
    have h4 : (2 : ℚ) ^ (-53 : Int) * |y| ≤ |y| := by
      have h53 : (2 : ℚ) ^ (-53 : Int) ≤ 1 := by norm_num
      nlinarith
    have h5 : (2 : ℚ) ^ (1024 : Int) = 2 * (2 : ℚ) ^ (1023 : Int) := by norm_num
    rw [h5]
    linarith
  refine ⟨_, roundF64_of_small_error hy0 hR hfin, ?_⟩
  by_cases hneg : y < 0
  · rw [if_pos hneg]
    have e2 : -R - y = -(R - |y|) := by rw [abs_of_neg hneg]; ring
    rw [e2, abs_neg]
    exact herr
  · rw [if_neg hneg]
    have e2 : R - y = R - |y| := by rw [abs_of_nonneg (not_lt.mp hneg)]
    rw [e2]
    exact herr

/-! ### Error propagation -/

theorem approx_exact {p q : Int} {X : ℚ} (h1 : (2 : ℚ) ^ p ≤ |X|) (h2 : |X| ≤ (2 : ℚ) ^ q) :
    Approx 0 p q X X := by
  refine ⟨?_, h1, h2⟩
  simp

theorem approx_exact_pos {p q : Int} {X : ℚ} (h0 : 0 < X) (h1 : (2 : ℚ) ^ p ≤ X)
    (h2 : X ≤ (2 : ℚ) ^ q) : Approx 0 p q X X := by
  apply approx_exact <;> rw [abs_of_pos h0] <;> assumption

theorem approx_mono {α β : ℚ} {p q p2 q2 : Int} {x X : ℚ} (h : Approx α p q x X)
    (hα : α ≤ β) (hp : p2 ≤ p) (hq : q ≤ q2) : Approx β p2 q2 x X := by
  obtain ⟨h1, h2, h3⟩ := h
  refine ⟨le_trans h1 (mul_le_mul_of_nonneg_right hα (abs_nonneg X)), ?_, ?_⟩
  · exact le_trans (zpow_le_zpow_right₀ (by norm_num) hp) h2
  · exact le_trans h3 (zpow_le_zpow_right₀ (by norm_num) hq)

theorem approx_abs_le {α : ℚ} {p q : Int} {x X : ℚ} (h : Approx α p q x X) :
    |x| ≤ |X| + α * |X| := by
  have h1 := h.1
  have h2 : |x| ≤ |x - X| + |X| := by
    have := abs_add (x - X) X
    simpa using this
  linarith

theorem approx_abs_ge {α : ℚ} {p q : Int} {x X : ℚ} (h : Approx α p q x X) :
    |X| - α * |X| ≤ |x| := by
  have h1 := h.1
  have h2 : |X| ≤ |x - X| + |x| := by
    have := abs_add (X - x) x
    rw [abs_sub_comm X x] at this
    simpa using this
  linarith

theorem approx_round {α : ℚ} {p q : Int} {y X : ℚ} (h : Approx α p q y X)
    (hα : α ≤ 1 / 2) (hp : -1021 ≤ p) (hq : q ≤ 1021) :
    ∃ r : ℚ, roundF64 y = XFloat.fin r
      ∧ Approx (α + (2 : ℚ) ^ (-53 : Int) + α * (2 : ℚ) ^ (-53 : Int)) p q r X := by
  obtain ⟨h1, h2, h3⟩ := h
  have hX1 : (2 : ℚ) ^ (-1021 : Int) ≤ |X| :=
    le_trans (zpow_le_zpow_right₀ (by norm_num) hp) h2
  have hX2 : |X| ≤ (2 : ℚ) ^ (1021 : Int) :=
    le_trans h3 (zpow_le_zpow_right₀ (by norm_num) hq)
  have hge := approx_abs_ge (⟨h1, h2, h3⟩ : Approx α p q y X)
  have hle := approx_abs_le (⟨h1, h2, h3⟩ : Approx α p q y X)
  have hXpos : 0 ≤ |X| := abs_nonneg X
  have e1 : (2 : ℚ) ^ (-1022 : Int) = (2 : ℚ) ^ (-1021 : Int) / 2 := by norm_num
  have e2 : (2 : ℚ) ^ (1023 : Int) = 4 * (2 : ℚ) ^ (1021 : Int) := by norm_num
  have hm1 : α * |X| ≤ 1 / 2 * |X| := mul_le_mul_of_nonneg_right hα hXpos
  have hlo : (2 : ℚ) ^ (-1022 : Int) ≤ |y| := by
    have k1 : (2 : ℚ) ^ (-1022 : Int) ≤ |X| / 2 := by
      rw [e1]; exact div_le_div_of_nonneg_right hX1 (by norm_num)
    have k2 : |X| / 2 ≤ |y| := by linarith
    exact le_trans k1 k2
  have hhi : |y| < (2 : ℚ) ^ (1023 : Int) := by
    have h1021 : (0 : ℚ) < (2 : ℚ) ^ (1021 : Int) := by positivity
    have k1 : |y| ≤ 2 * |X| := by linarith
    have k2 : 2 * |X| ≤ 2 * (2 : ℚ) ^ (1021 : Int) := by linarith
    have k3 : 2 * (2 : ℚ) ^ (1021 : Int) < (2 : ℚ) ^ (1023 : Int) := by
      rw [e2]
      generalize (2 : ℚ) ^ (1021 : Int) = L at h1021 ⊢
      linarith
    exact lt_of_le_of_lt (le_trans k1 k2) k3
  obtain ⟨r, hr, herr⟩ := roundF64_rel hlo hhi
  refine ⟨r, hr, ?_, h2, h3⟩
  have hu : (0 : ℚ) ≤ (2 : ℚ) ^ (-53 : Int) := by positivity
  have h4 : |r - X| ≤ |r - y| + |y - X| := by
    have := abs_add (r - y) (y - X)
    simpa using this
  have h5 : (2 : ℚ) ^ (-53 : Int) * |y| ≤ (2 : ℚ) ^ (-53 : Int) * (|X| + α * |X|) :=
    mul_le_mul_of_nonneg_left hle hu
  have e3 : (α + (2 : ℚ) ^ (-53 : Int) + α * (2 : ℚ) ^ (-53 : Int)) * |X|
      = α * |X| + (2 : ℚ) ^ (-53 : Int) * (|X| + α * |X|) := by ring
  rw [e3]
  linarith

theorem approx_mul {α β : ℚ} {p1 q1 p2 q2 : Int} {x X y Y : ℚ} (h1 : Approx α p1 q1 x X)
    (h2 : Approx β p2 q2 y Y) (hα0 : 0 ≤ α) :
    Approx (α + β + α * β) (p1 + p2) (q1 + q2) (x * y) (X * Y) := by
  have hy := approx_abs_le h2
  obtain ⟨a1, a2, a3⟩ := h1
  obtain ⟨b1, b2, b3⟩ := h2
  refine ⟨?_, ?_, ?_⟩
  · have e : x * y - X * Y = (x - X) * y + X * (y - Y) := by ring
    rw [e, abs_mul X Y]
    have t1 : |(x - X) * y + X * (y - Y)| ≤ |x - X| * |y| + |X| * |y - Y| := by
      have := abs_add ((x - X) * y) (X * (y - Y))
      rwa [abs_mul, abs_mul] at this
    have t2 : |x - X| * |y| ≤ (α * |X|) * (|Y| + β * |Y|) :=
      mul_le_mul a1 hy (abs_nonneg y) (mul_nonneg hα0 (abs_nonneg X))
    have t3 : |X| * |y - Y| ≤ |X| * (β * |Y|) :=
      mul_le_mul_of_nonneg_left b1 (abs_nonneg X)
    nlinarith
  · rw [zpow_add₀ (by norm_num : (2 : ℚ) ≠ 0), abs_mul]
    exact mul_le_mul a2 b2 (by positivity) (abs_nonneg X)
  · rw [zpow_add₀ (by norm_num : (2 : ℚ) ≠ 0), abs_mul]
    exact mul_le_mul a3 b3 (abs_nonneg Y) (by positivity)

theorem approx_ne_zero {α : ℚ} {p q : Int} {x X : ℚ} (h : Approx α p q x X) (hα : α < 1) :
    x ≠ 0 := by
  have hge := approx_abs_ge h
  have hX : 0 < |X| := lt_of_lt_of_le (by positivity) h.2.1
  have : 0 < |x| := by nlinarith
  exact abs_pos.mp this

theorem approx_div {α β : ℚ} {p1 q1 p2 q2 : Int} {x X y Y : ℚ} (h1 : Approx α p1 q1 x X)
    (h2 : Approx β p2 q2 y Y) (hα0 : 0 ≤ α) (hβ0 : 0 ≤ β) (hβ : β < 1) :
    Approx ((α + β) / (1 - β)) (p1 - q2) (q1 - p2) (x / y) (X / Y) := by
  have hy0 : y ≠ 0 := approx_ne_zero h2 hβ
  have hyge := approx_abs_ge h2
  obtain ⟨a1, a2, a3⟩ := h1
  obtain ⟨b1, b2, b3⟩ := h2
  have hYpos : 0 < |Y| := lt_of_lt_of_le (by positivity) b2
  have hY0 : Y ≠ 0 := abs_pos.mp hYpos
  have hypos : 0 < |y| := abs_pos.mpr hy0
  have h1β : 0 < 1 - β := by linarith
  refine ⟨?_, ?_, ?_⟩
  · have e : x / y - X / Y = ((x - X) * Y - X * (y - Y)) / (y * Y) := by
      field_simp; ring
    rw [e, abs_div, abs_mul y Y, abs_div, div_le_iff₀ (mul_pos hypos hYpos)]
    have t1 : |(x - X) * Y - X * (y - Y)| ≤ |x - X| * |Y| + |X| * |y - Y| := by
      have := abs_sub ((x - X) * Y) (X * (y - Y))
      rwa [abs_mul, abs_mul] at this
    have t2 : |x - X| * |Y| ≤ (α * |X|) * |Y| := mul_le_mul_of_nonneg_right a1 (abs_nonneg Y)
    have t3 : |X| * |y - Y| ≤ |X| * (β * |Y|) := mul_le_mul_of_nonneg_left b1 (abs_nonneg X)
    have t4 : (α + β) * |X| * |Y| ≤ (α + β) / (1 - β) * (|X| / |Y|) * (|y| * |Y|) := by
      have e2 : (α + β) / (1 - β) * (|X| / |Y|) * (|y| * |Y|)
          = (α + β) * |X| * (|y| / (1 - β)) := by
        field_simp; ring
      rw [e2]
      have t5 : |Y| ≤ |y| / (1 - β) := by
        rw [le_div_iff₀ h1β]
        have e3 : |Y| * (1 - β) = |Y| - β * |Y| := by ring
        rw [e3]; exact hyge
      exact mul_le_mul_of_nonneg_left t5 (mul_nonneg (by linarith) (abs_nonneg X))
    linarith
  · rw [zpow_sub₀ (by norm_num : (2 : ℚ) ≠ 0), abs_div]
    exact div_le_div₀ (abs_nonneg X) a2 (by positivity) b3
  · rw [zpow_sub₀ (by norm_num : (2 : ℚ) ≠ 0), abs_div]
    exact div_le_div₀ (by positivity) a3 (by positivity) b2

/-! ### The rounded functions -/

theorem XFloat.round_fin_mul (x y : ℚ) :
    (XFloat.fin x * XFloat.fin y).round = roundF64 (x * y) := rfl

theorem XFloat.round_fin_div (x : ℚ) {y : ℚ} (hy : y ≠ 0) :
    (XFloat.fin x / XFloat.fin y).round = roundF64 (x / y) := by
  rw [XFloat.fin_div_of_ne x hy]; rfl

theorem int_approx {a : Int} (ha : fitsInt64 a) (h0 : a ≠ 0) :
    Approx 0 0 63 (a : ℚ) (a : ℚ) := by
  obtain ⟨h1, h2⟩ := ha
  apply approx_exact
  · have h : (1 : Int) ≤ |a| := Int.one_le_abs h0
    have h' : ((1 : Int) : ℚ) ≤ ((|a| : Int) : ℚ) := by exact_mod_cast h
    simpa using h'
  · have h : |a| ≤ (2 : Int) ^ 63 := by
      rw [abs_le]; constructor <;> linarith
    have h' : ((|a| : Int) : ℚ) ≤ (((2 : Int) ^ 63 : Int) : ℚ) := by exact_mod_cast h
    have e : (((2 : Int) ^ 63 : Int) : ℚ) = (2 : ℚ) ^ (63 : Int) := by norm_num
    rw [e] at h'
    simpa using h'

theorem stepProduct_approx {a : Int} (ha : fitsInt64 a) (h0 : a ≠ 0) :
    ∃ p : ℚ, (roundF64 (a : ℚ) * roundF64 lenStep).round = XFloat.fin p
      ∧ Approx ((2 : ℚ) ^ (-51 : Int)) (-1) 63 p ((a : ℚ) * lenStep) := by
  obtain ⟨x, hx, Ax⟩ := approx_round (int_approx ha h0) (by norm_num) (by norm_num) (by norm_num)
  have Astep : Approx 0 (-1) 0 lenStep lenStep :=
    approx_exact_pos (by norm_num [lenStep]) (by norm_num [lenStep]) (by norm_num [lenStep])
  obtain ⟨c, hc, Ac⟩ := approx_round Astep (by norm_num) (by norm_num) (by norm_num)
  obtain ⟨p, hp, Ap⟩ := approx_round (approx_mul Ax Ac (by norm_num)) (by norm_num)
    (by norm_num) (by norm_num)
  refine ⟨p, ?_, approx_mono Ap (by norm_num) (by norm_num) (by norm_num)⟩
  rw [hx, hc, XFloat.round_fin_mul, hp]

theorem distanceF64_approx {a : Int} (ha : fitsInt64 a) (h0 : a ≠ 0) :
    ∃ v : ℚ, distanceF64 a = XFloat.fin v
      ∧ Approx ((2 : ℚ) ^ (-50 : Int)) (-11) 54 v (distance a) := by
  obtain ⟨p, hp, Ap⟩ := stepProduct_approx ha h0
  have Akm : Approx 0 9 10 mInKm mInKm :=
    approx_exact_pos (by norm_num [mInKm]) (by norm_num [mInKm]) (by norm_num [mInKm])
  obtain ⟨k, hk, Ak⟩ := approx_round Akm (by norm_num) (by norm_num) (by norm_num)
  have hk0 : k ≠ 0 := approx_ne_zero Ak (by norm_num)
  obtain ⟨v, hv, Av⟩ := approx_round
    (approx_div Ap Ak (by norm_num) (by norm_num) (by norm_num)) (by norm_num)
    (by norm_num) (by norm_num)
  refine ⟨v, ?_, approx_mono Av (by norm_num) (by norm_num) (by norm_num)⟩
  rw [distanceF64, hp, hk, XFloat.round_fin_div p hk0, hv]

theorem distanceF64_zero : distanceF64 0 = XFloat.fin 0 := by
  have h0 : roundF64 ((0 : Int) : ℚ) = XFloat.fin 0 := by simp [roundF64]
  have Akm : Approx 0 9 10 mInKm mInKm :=
    approx_exact_pos (by norm_num [mInKm]) (by norm_num [mInKm]) (by norm_num [mInKm])
  obtain ⟨k, hk, Ak⟩ := approx_round Akm (by norm_num) (by norm_num) (by norm_num)
  have hk0 : k ≠ 0 := approx_ne_zero Ak (by norm_num)
  have Astep : Approx 0 (-1) 0 lenStep lenStep :=
    approx_exact_pos (by norm_num [lenStep]) (by norm_num [lenStep]) (by norm_num [lenStep])
  obtain ⟨c, hc, _⟩ := approx_round Astep (by norm_num) (by norm_num) (by norm_num)
  rw [distanceF64, h0, hc, XFloat.round_fin_mul, hk, zero_mul]
  have hr0 : roundF64 0 = XFloat.fin 0 := by simp [roundF64]
  rw [hr0, XFloat.round_fin_div 0 hk0, zero_div, hr0]

theorem roundF64_lenStep :
    roundF64 (13 / 20) = XFloat.fin (5854679515581645 / 2 ^ 53) := by
  rw [roundF64_eq_of_pos (-1) 5854679515581645 (1 / 2 ^ 53) (by norm_num) (by norm_num)
    (by norm_num) (by norm_num) (by norm_num) (by norm_num) (by norm_num) (by norm_num)]
  norm_num

theorem roundF64_1000 :
    roundF64 (1000) = XFloat.fin (1000) := by
  rw [roundF64_eq_of_pos (9) 8796093022208000 (1 / 2 ^ 43) (by norm_num) (by norm_num)
    (by norm_num) (by norm_num) (by norm_num) (by norm_num) (by norm_num) (by norm_num)]
  norm_num

theorem roundF64_3600 :
    roundF64 (3600) = XFloat.fin (3600) := by
  rw [roundF64_eq_of_pos (11) 7916483719987200 (1 / 2 ^ 41) (by norm_num) (by norm_num)
    (by norm_num) (by norm_num) (by norm_num) (by norm_num) (by norm_num) (by norm_num)]
  norm_num

theorem distanceF64_near {a : Int} (ha : fitsInt64 a) :
    ∃ v : ℚ, distanceF64 a = XFloat.fin v
      ∧ |v - distance a| ≤ (2 : ℚ) ^ (-50 : Int) * |distance a| := by
  by_cases h0 : a = 0
  · subst h0
    exact ⟨0, distanceF64_zero, by simp [distance]⟩
  · obtain ⟨v, hv, Av⟩ := distanceF64_approx ha h0
    exact ⟨v, hv, Av.1⟩

theorem meanSpeedF64_approx {a : Int} {d : ℚ} (ha : fitsInt64 a) (h0 : a ≠ 0)
    (hd1 : (2 : ℚ) ^ (-100 : Int) ≤ d) (hd2 : d ≤ (2 : ℚ) ^ (100 : Int)) :
    ∃ m : ℚ, meanSpeedF64 a d = XFloat.fin m
      ∧ Approx ((2 : ℚ) ^ (-49 : Int)) (-111) 154 m (distance a / d) := by
  have hdpos : 0 < d := lt_of_lt_of_le (by positivity) hd1
  obtain ⟨v, hv, Av⟩ := distanceF64_approx ha h0
  have Ad : Approx 0 (-100) 100 d d := approx_exact_pos hdpos hd1 hd2
  obtain ⟨m, hm, Am⟩ := approx_round
    (approx_div Av Ad (by norm_num) (by norm_num) (by norm_num)) (by norm_num)
    (by norm_num) (by norm_num)
  refine ⟨m, ?_, approx_mono Am (by norm_num) (by norm_num) (by norm_num)⟩
  rw [meanSpeedF64, if_neg (ne_of_gt hdpos)]
  simp only [hv, XFloat.round_fin_div v (ne_of_gt hdpos), hm]

theorem walkingSpeedF64_approx {a : Int} {d : ℚ} (ha : fitsInt64 a) (h0 : a ≠ 0)
    (hd1 : (2 : ℚ) ^ (-100 : Int) ≤ d) (hd2 : d ≤ (2 : ℚ) ^ (100 : Int)) :
    ∃ s : ℚ, walkingSpeedF64 a d = XFloat.fin s
      ∧ Approx ((2 : ℚ) ^ (-50 : Int)) (-113) 152 s ((a : ℚ) * lenStep / (d * 3600)) := by
  have hdpos : 0 < d := lt_of_lt_of_le (by positivity) hd1
  obtain ⟨p, hp, Ap⟩ := stepProduct_approx ha h0
  have Ad : Approx 0 (-100) 100 d d := approx_exact_pos hdpos hd1 hd2
  have A3600 : Approx 0 11 12 (3600 : ℚ) 3600 :=
    approx_exact_pos (by norm_num) (by norm_num) (by norm_num)
  obtain ⟨k, hk, Ak⟩ := approx_round A3600 (by norm_num) (by norm_num) (by norm_num)
  obtain ⟨g, hg, Ag⟩ := approx_round (approx_mul Ad Ak (by norm_num)) (by norm_num)
    (by norm_num) (by norm_num)
  have hg0 : g ≠ 0 := approx_ne_zero Ag (by norm_num)
  obtain ⟨s, hs, As⟩ := approx_round
    (approx_div Ap Ag (by norm_num) (by norm_num) (by norm_num)) (by norm_num)
    (by norm_num) (by norm_num)
  refine ⟨s, ?_, approx_mono As (by norm_num) (by norm_num) (by norm_num)⟩
  rw [walkingSpeedF64, hp, hk, XFloat.round_fin_mul, hg, XFloat.round_fin_div p hg0, hs]

theorem approx_pair {α β : ℚ} {p q p2 q2 : Int} {x y X : ℚ} (h1 : Approx α p q x X)
    (h2 : Approx β p2 q2 y X) (hβ : β < 1) :
    |x - y| ≤ (α + β) / (1 - β) * |y| := by
  have hge := approx_abs_ge h2
  have a1 := h1.1
  have b1 := h2.1
  have h1β : 0 < 1 - β := by linarith
  have hXpos : 0 < |X| := lt_of_lt_of_le (by positivity) h1.2.1
  have t1 : |x - y| ≤ |x - X| + |y - X| := by
    have := abs_sub (x - X) (y - X)
    simpa using this
  have hα0 : 0 ≤ α * |X| := le_trans (abs_nonneg _) a1
  have hβ0 : 0 ≤ β * |X| := le_trans (abs_nonneg _) b1
  have t2 : |X| ≤ |y| / (1 - β) := by
    rw [le_div_iff₀ h1β]
    have e3 : |X| * (1 - β) = |X| - β * |X| := by ring
    rw [e3]; exact hge
  have hab : 0 ≤ α + β := by
    have : 0 ≤ (α + β) * |X| := by linarith
    exact nonneg_of_mul_nonneg_left this hXpos
  have t3 : (α + β) * |X| ≤ (α + β) * (|y| / (1 - β)) := mul_le_mul_of_nonneg_left t2 hab
  have e4 : (α + β) / (1 - β) * |y| = (α + β) * (|y| / (1 - β)) := by ring
  rw [e4]
  linarith

theorem roundF64_int_1 :
    roundF64 (1) = XFloat.fin (1) := by
  rw [roundF64_eq_of_pos (0) 4503599627370496 (1 / 2 ^ 52) (by norm_num) (by norm_num)
    (by norm_num) (by norm_num) (by norm_num) (by norm_num) (by norm_num) (by norm_num)]
  norm_num

theorem roundF64_step_1 :
    roundF64 (5854679515581645 / 2 ^ 53) = XFloat.fin (5854679515581645 / 2 ^ 53) := by
  rw [roundF64_eq_of_pos (-1) 5854679515581645 (1 / 2 ^ 53) (by norm_num) (by norm_num)
    (by norm_num) (by norm_num) (by norm_num) (by norm_num) (by norm_num) (by norm_num)]
  norm_num

theorem roundF64_km_1 :
    roundF64 (1170935903116329 / 1801439850948198400) = XFloat.fin (1498797955988901 / 2 ^ 61) := by
  rw [roundF64_eq_of_pos (-11) 5995191823955604 (1 / 2 ^ 63) (by norm_num) (by norm_num)
    (by norm_num) (by norm_num) (by norm_num) (by norm_num) (by norm_num) (by norm_num)]
  norm_num

theorem roundF64_int_2 :
    roundF64 (2) = XFloat.fin (2) := by
  rw [roundF64_eq_of_pos (1) 4503599627370496 (1 / 2 ^ 51) (by norm_num) (by norm_num)
    (by norm_num) (by norm_num) (by norm_num) (by norm_num) (by norm_num) (by norm_num)]
  norm_num

theorem roundF64_step_2 :
    roundF64 (5854679515581645 / 2 ^ 52) = XFloat.fin (5854679515581645 / 2 ^ 52) := by
  rw [roundF64_eq_of_pos (0) 5854679515581645 (1 / 2 ^ 52) (by norm_num) (by norm_num)
    (by norm_num) (by norm_num) (by norm_num) (by norm_num) (by norm_num) (by norm_num)]
  norm_num

theorem roundF64_km_2 :
    roundF64 (1170935903116329 / 900719925474099200) = XFloat.fin (1498797955988901 / 2 ^ 60) := by
  rw [roundF64_eq_of_pos (-10) 5995191823955604 (1 / 2 ^ 62) (by norm_num) (by norm_num)
    (by norm_num) (by norm_num) (by norm_num) (by norm_num) (by norm_num) (by norm_num)]
  norm_num

theorem roundF64_int_3 :
    roundF64 (3) = XFloat.fin (3) := by
  rw [roundF64_eq_of_pos (1) 6755399441055744 (1 / 2 ^ 51) (by norm_num) (by norm_num)
    (by norm_num) (by norm_num) (by norm_num) (by norm_num) (by norm_num) (by norm_num)]
  norm_num

theorem roundF64_step_3 :
    roundF64 (17564038546744935 / 2 ^ 53) = XFloat.fin (2195504818343117 / 2 ^ 50) := by
  rw [roundF64_eq_of_round (0) 8782019273372468 (1 / 2 ^ 52) (by norm_num) (by norm_num)
    (by norm_num) (by norm_num) (by norm_num)
    (roundHalfEven_tie_odd 8782019273372467 (by norm_num) (by norm_num)) (by norm_num)]
  norm_num

theorem roundF64_km_3 :
    roundF64 (2195504818343117 / 1125899906842624000) = XFloat.fin (8992787735933407 / 2 ^ 62) := by
  rw [roundF64_eq_of_pos (-10) 8992787735933407 (1 / 2 ^ 62) (by norm_num) (by norm_num)
    (by norm_num) (by norm_num) (by norm_num) (by norm_num) (by norm_num) (by norm_num)]
  norm_num

theorem roundF64_int_big :
    roundF64 (18014398509481984) = XFloat.fin (18014398509481984) := by
  rw [roundF64_eq_of_pos (54) 4503599627370496 (4) (by norm_num) (by norm_num)
    (by norm_num) (by norm_num) (by norm_num) (by norm_num) (by norm_num) (by norm_num)]
  norm_num

theorem roundF64_step_big :
    roundF64 (11709359031163290) = XFloat.fin (11709359031163290) := by
  rw [roundF64_eq_of_pos (53) 5854679515581645 (2) (by norm_num) (by norm_num)
    (by norm_num) (by norm_num) (by norm_num) (by norm_num) (by norm_num) (by norm_num)]
  norm_num

theorem roundF64_km_big :
    roundF64 (1170935903116329 / 100) = XFloat.fin (1498797955988901 / 128) := by
  rw [roundF64_eq_of_pos (43) 5995191823955604 (1 / 512) (by norm_num) (by norm_num)
    (by norm_num) (by norm_num) (by norm_num) (by norm_num) (by norm_num) (by norm_num)]
  norm_num

theorem roundF64_int_bigSucc :
    roundF64 (18014398509481985) = XFloat.fin (18014398509481984) := by
  rw [roundF64_eq_of_pos (54) 4503599627370496 (4) (by norm_num) (by norm_num)
    (by norm_num) (by norm_num) (by norm_num) (by norm_num) (by norm_num) (by norm_num)]
  norm_num

theorem roundF64_step_bigSucc :
    roundF64 (11709359031163290) = XFloat.fin (11709359031163290) := by
  rw [roundF64_eq_of_pos (53) 5854679515581645 (2) (by norm_num) (by norm_num)
    (by norm_num) (by norm_num) (by norm_num) (by norm_num) (by norm_num) (by norm_num)]
  norm_num

theorem roundF64_km_bigSucc :
    roundF64 (1170935903116329 / 100) = XFloat.fin (1498797955988901 / 128) := by
  rw [roundF64_eq_of_pos (43) 5995191823955604 (1 / 512) (by norm_num) (by norm_num)
    (by norm_num) (by norm_num) (by norm_num) (by norm_num) (by norm_num) (by norm_num)]
  norm_num

theorem roundF64_int_385 :
    roundF64 (385) = XFloat.fin (385) := by
  rw [roundF64_eq_of_pos (8) 6772991627100160 (1 / 2 ^ 44) (by norm_num) (by norm_num)
    (by norm_num) (by norm_num) (by norm_num) (by norm_num) (by norm_num) (by norm_num)]
  norm_num

theorem roundF64_step_385 :
    roundF64 (2254051613498933325 / 2 ^ 53) = XFloat.fin (1001 / 4) := by
  rw [roundF64_eq_of_pos (7) 8804889115230208 (1 / 2 ^ 45) (by norm_num) (by norm_num)
    (by norm_num) (by norm_num) (by norm_num) (by norm_num) (by norm_num) (by norm_num)]
  norm_num

theorem roundF64_km_385 :
    roundF64 (1001 / 4000) = XFloat.fin (2254051613498933 / 2 ^ 53) := by
  rw [roundF64_eq_of_pos (-2) 4508103226997866 (1 / 2 ^ 54) (by norm_num) (by norm_num)
    (by norm_num) (by norm_num) (by norm_num) (by norm_num) (by norm_num) (by norm_num)]
  norm_num

theorem roundF64_sum_1_2 :
    roundF64 (4496393867966703 / 2 ^ 61) = XFloat.fin (4496393867966703 / 2 ^ 61) := by
  rw [roundF64_eq_of_pos (-10) 8992787735933406 (1 / 2 ^ 62) (by norm_num) (by norm_num)
    (by norm_num) (by norm_num) (by norm_num) (by norm_num) (by norm_num) (by norm_num)]
  norm_num

theorem roundF64_diff_3_2 :
    roundF64 (2997595911977803 / 2 ^ 62) = XFloat.fin (2997595911977803 / 2 ^ 62) := by
  rw [roundF64_eq_of_pos (-11) 5995191823955606 (1 / 2 ^ 63) (by norm_num) (by norm_num)
    (by norm_num) (by norm_num) (by norm_num) (by norm_num) (by norm_num) (by norm_num)]
  norm_num

theorem roundF64_step_const :
    roundF64 (13 / 20000) = XFloat.fin (1498797955988901 / 2 ^ 61) := by
  rw [roundF64_eq_of_pos (-11) 5995191823955604 (1 / 2 ^ 63) (by norm_num) (by norm_num)
    (by norm_num) (by norm_num) (by norm_num) (by norm_num) (by norm_num) (by norm_num)]
  norm_num

theorem roundF64_mean_385 :
    roundF64 (2254051613498933 / 2 ^ 53) = XFloat.fin (2254051613498933 / 2 ^ 53) := by
  rw [roundF64_eq_of_pos (-2) 4508103226997866 (1 / 2 ^ 54) (by norm_num) (by norm_num)
    (by norm_num) (by norm_num) (by norm_num) (by norm_num) (by norm_num) (by norm_num)]
  norm_num

theorem roundF64_walk_385 :
    roundF64 (1001 / 14400) = XFloat.fin (5009003585553185 / 2 ^ 56) := by
  rw [roundF64_eq_of_pos (-4) 5009003585553185 (1 / 2 ^ 56) (by norm_num) (by norm_num)
    (by norm_num) (by norm_num) (by norm_num) (by norm_num) (by norm_num) (by norm_num)]
  norm_num

theorem roundF64_mean1000_385 :
    roundF64 (281756451687366625 / 2 ^ 50) = XFloat.fin (8804889115230207 / 2 ^ 45) := by
  rw [roundF64_eq_of_pos (7) 8804889115230207 (1 / 2 ^ 45) (by norm_num) (by norm_num)
    (by norm_num) (by norm_num) (by norm_num) (by norm_num) (by norm_num) (by norm_num)]
  norm_num

theorem roundF64_mean3600_385 :
    roundF64 (2934963038410069 / 42221246506598400) = XFloat.fin (156531362048537 / 2 ^ 51) := by
  rw [roundF64_eq_of_pos (-4) 5009003585553184 (1 / 2 ^ 56) (by norm_num) (by norm_num)
    (by norm_num) (by norm_num) (by norm_num) (by norm_num) (by norm_num) (by norm_num)]
  norm_num

theorem roundF64_int_huge :
    roundF64 (4611686018427387904) = XFloat.fin (4611686018427387904) := by
  rw [roundF64_eq_of_pos (62) 4503599627370496 (1024) (by norm_num) (by norm_num)
    (by norm_num) (by norm_num) (by norm_num) (by norm_num) (by norm_num) (by norm_num)]
  norm_num

theorem roundF64_step_huge :
    roundF64 (2997595911977802240) = XFloat.fin (2997595911977802240) := by
  rw [roundF64_eq_of_pos (61) 5854679515581645 (512) (by norm_num) (by norm_num)
    (by norm_num) (by norm_num) (by norm_num) (by norm_num) (by norm_num) (by norm_num)]
  norm_num

theorem roundF64_km_huge :
    roundF64 (74939897799445056 / 25) = XFloat.fin (2997595911977802) := by
  rw [roundF64_eq_of_pos (51) 5995191823955604 (1 / 2) (by norm_num) (by norm_num)
    (by norm_num) (by norm_num) (by norm_num) (by norm_num) (by norm_num) (by norm_num)]
  norm_num

theorem roundF64_g_huge :
    roundF64 (225 / 2 ^ 976) = XFloat.fin (225 / 2 ^ 976) := by
  rw [roundF64_eq_of_pos (-969) 7916483719987200 (1 / 2 ^ 1021) (by norm_num) (by norm_num)
    (by norm_num) (by norm_num) (by norm_num) (by norm_num) (by norm_num) (by norm_num)]
  norm_num

theorem roundF64_lenStep_const :
    roundF64 lenStep = XFloat.fin (5854679515581645 / 2 ^ 53) := by
  have e : lenStep = 13 / 20 := by norm_num [lenStep]
  rw [e]; exact roundF64_lenStep

theorem roundF64_mInKm_const : roundF64 mInKm = XFloat.fin 1000 := roundF64_1000

theorem stepProduct_eval {a : Int} {x p : ℚ} (xa y : ℚ) (hxa : (a : ℚ) = xa)
    (hx : roundF64 xa = XFloat.fin x)
    (hy : x * (5854679515581645 / 2 ^ 53) = y) (hp : roundF64 y = XFloat.fin p) :
    (roundF64 (a : ℚ) * roundF64 lenStep).round = XFloat.fin p := by
  rw [hxa, hx, roundF64_lenStep_const, XFloat.round_fin_mul, hy, hp]

theorem distanceF64_eval {a : Int} {x p v : ℚ} (xa y z : ℚ) (hxa : (a : ℚ) = xa)
    (hx : roundF64 xa = XFloat.fin x)
    (hy : x * (5854679515581645 / 2 ^ 53) = y) (hp : roundF64 y = XFloat.fin p)
    (hz : p / 1000 = z) (hv : roundF64 z = XFloat.fin v) :
    distanceF64 a = XFloat.fin v := by
  rw [distanceF64, stepProduct_eval xa y hxa hx hy hp, roundF64_mInKm_const,
    XFloat.round_fin_div p (by norm_num), hz, hv]

theorem XFloat.round_fin_add (x y : ℚ) :
    (XFloat.fin x + XFloat.fin y).round = roundF64 (x + y) := rfl

theorem approx_add {α β γ : ℚ} {p1 q1 p2 q2 Q : Int} {x X y Y : ℚ} (h1 : Approx α p1 q1 x X)
    (h2 : Approx β p2 q2 y Y) (hs : 0 < X * Y) (hα : α ≤ γ) (hβ : β ≤ γ) (hq1 : q1 ≤ Q)
    (hq2 : q2 ≤ Q) : Approx γ p1 (Q + 1) (x + y) (X + Y) := by
  obtain ⟨a1, a2, a3⟩ := h1
  obtain ⟨b1, b2, b3⟩ := h2
  have habs : |X + Y| = |X| + |Y| := by
    rcases lt_trichotomy X 0 with hX | hX | hX
    · have hY : Y < 0 := by
        by_contra hc
        have : X * Y ≤ 0 := mul_nonpos_of_nonpos_of_nonneg (le_of_lt hX) (not_lt.mp hc)
        linarith
      rw [abs_of_neg hX, abs_of_neg hY, abs_of_neg (by linarith)]; ring
    · rw [hX] at hs; simp at hs
    · have hY : 0 < Y := by
        by_contra hc
        have : X * Y ≤ 0 := mul_nonpos_of_nonneg_of_nonpos (le_of_lt hX) (not_lt.mp hc)
        linarith
      rw [abs_of_pos hX, abs_of_pos hY, abs_of_pos (by linarith)]
  refine ⟨?_, ?_, ?_⟩
  · have e : x + y - (X + Y) = (x - X) + (y - Y) := by ring
    rw [e, habs]
    have t := abs_add (x - X) (y - Y)
    have t1 : α * |X| ≤ γ * |X| := mul_le_mul_of_nonneg_right hα (abs_nonneg X)
    have t2 : β * |Y| ≤ γ * |Y| := mul_le_mul_of_nonneg_right hβ (abs_nonneg Y)
    have e2 : γ * (|X| + |Y|) = γ * |X| + γ * |Y| := by ring
    rw [e2]
    linarith
  · rw [habs]
    have := abs_nonneg Y
    linarith
  · rw [habs, zpow_add_one₀ (by norm_num : (2 : ℚ) ≠ 0)]
    have t1 : |X| ≤ (2 : ℚ) ^ Q := le_trans a3 (zpow_le_zpow_right₀ (by norm_num) hq1)
    have t2 : |Y| ≤ (2 : ℚ) ^ Q := le_trans b3 (zpow_le_zpow_right₀ (by norm_num) hq2)
    linarith

theorem roundF64_overflow {x : ℚ} (hx : (2 : ℚ) ^ (1024 : Int) ≤ x) :
    roundF64 x = XFloat.posInf := by
  have hpos : 0 < x := lt_of_lt_of_le (by positivity) hx
  have he : (1024 : Int) ≤ Int.log 2 x :=
    (Int.zpow_le_iff_le_log (b := 2) (by norm_num) hpos).mp (by exact_mod_cast hx)
  have hexp : exponentF64 x = Int.log 2 x := by
    unfold exponentF64
    rw [abs_of_pos hpos]
    exact max_eq_left (by omega)
  have h1 : (2 : ℚ) ^ Int.log 2 x ≤ x := by
    exact_mod_cast Int.zpow_log_le_self (b := 2) (by norm_num) hpos
  have hu0 : (0 : ℚ) < (2 : ℚ) ^ (Int.log 2 x - 52) := by positivity
  have hsplit : (2 : ℚ) ^ Int.log 2 x = (2 : ℚ) ^ (52 : Int) * (2 : ℚ) ^ (Int.log 2 x - 52) := by
    rw [← zpow_add₀ (by norm_num : (2 : ℚ) ≠ 0)]; congr 1; ring
  have hy : (2 : ℚ) ^ (52 : Int) ≤ x / (2 : ℚ) ^ (Int.log 2 x - 52) := by
    rw [le_div_iff₀ hu0, ← hsplit]; exact h1
  have hnear := roundHalfEven_near (q := x / (2 : ℚ) ^ (Int.log 2 x - 52))
    (le_of_lt (div_pos hpos hu0))
  have hn : (2 : ℚ) ^ (52 : Int)
      ≤ ((roundHalfEven (x / (2 : ℚ) ^ (Int.log 2 x - 52)) : Nat) : ℚ) := by
    have h3 := (abs_le.mp hnear).1
    have h4 : ((4503599627370496 : Nat) : ℚ) - 1
        < ((roundHalfEven (x / (2 : ℚ) ^ (Int.log 2 x - 52)) : Nat) : ℚ) := by
      have e : (2 : ℚ) ^ (52 : Int) = ((4503599627370496 : Nat) : ℚ) := by norm_num
      rw [e] at hy
      linarith
    have h5 : (4503599627370496 : Nat) ≤ roundHalfEven (x / (2 : ℚ) ^ (Int.log 2 x - 52)) := by
      by_contra hc
      have hlt : roundHalfEven (x / (2 : ℚ) ^ (Int.log 2 x - 52)) + 1 ≤ 4503599627370496 := by
        omega
      have hlt2 : ((roundHalfEven (x / (2 : ℚ) ^ (Int.log 2 x - 52)) + 1 : Nat) : ℚ)
          ≤ ((4503599627370496 : Nat) : ℚ) := by exact_mod_cast hlt
      push_cast at hlt2 h4
      linarith
    have e : (2 : ℚ) ^ (52 : Int) = ((4503599627370496 : Nat) : ℚ) := by norm_num
    rw [e]
    exact_mod_cast h5
  have hbig : (2 : ℚ) ^ (1024 : Int)
      ≤ ((roundHalfEven (|x| / (2 : ℚ) ^ (exponentF64 x - 52)) : Nat) : ℚ)
          * (2 : ℚ) ^ (exponentF64 x - 52) := by
    rw [hexp, abs_of_pos hpos]
    calc (2 : ℚ) ^ (1024 : Int) ≤ (2 : ℚ) ^ Int.log 2 x :=
          zpow_le_zpow_right₀ (by norm_num) he
      _ = (2 : ℚ) ^ (52 : Int) * (2 : ℚ) ^ (Int.log 2 x - 52) := hsplit
      _ ≤ ((roundHalfEven (x / (2 : ℚ) ^ (Int.log 2 x - 52)) : Nat) : ℚ)
            * (2 : ℚ) ^ (Int.log 2 x - 52) := mul_le_mul_of_nonneg_right hn (le_of_lt hu0)
  unfold roundF64
  simp only [if_neg (ne_of_gt hpos), if_pos hbig, XFloat.infOfSign_of_pos hpos]

theorem approx_weight {w : ℚ} (hw1 : (2 : ℚ) ^ (-100 : Int) ≤ |w|)
    (hw2 : |w| ≤ (2 : ℚ) ^ (100 : Int)) : Approx 0 (-100) 100 w w :=
  approx_exact hw1 hw2

theorem WalkingSpentCaloriesF64_approx {a : Int} {d w h : ℚ} (ha : fitsInt64 a) (h0 : a ≠ 0)
    (hd1 : (2 : ℚ) ^ (-100 : Int) ≤ d) (hd2 : d ≤ (2 : ℚ) ^ (100 : Int))
    (hw1 : (2 : ℚ) ^ (-100 : Int) ≤ |w|) (hw2 : |w| ≤ (2 : ℚ) ^ (100 : Int))
    (hh1 : (2 : ℚ) ^ (-100 : Int) ≤ h) (hh2 : h ≤ (2 : ℚ) ^ (100 : Int)) :
    ∃ r : ℚ, WalkingSpentCaloriesF64 a d w h = XFloat.fin r
      ∧ Approx (35 * (2 : ℚ) ^ (-53 : Int)) (-205) 607 r
          ((walkingCaloriesWeightMultiplier * w
              + ((a : ℚ) * lenStep / (d * 3600) * ((a : ℚ) * lenStep / (d * 3600)) / h
                  * walkingSpeedHeightMultiplier * w)) * d * minInH) := by
  have hdpos : 0 < d := lt_of_lt_of_le (by positivity) hd1
  have hhpos : 0 < h := lt_of_lt_of_le (by positivity) hh1
  have hwne : w ≠ 0 := abs_pos.mp (lt_of_lt_of_le (by positivity) hw1)
  have Ad : Approx 0 (-100) 100 d d := approx_exact_pos hdpos hd1 hd2
  have Ah : Approx 0 (-100) 100 h h := approx_exact_pos hhpos hh1 hh2
  have Aw : Approx 0 (-100) 100 w w := approx_weight hw1 hw2
  obtain ⟨s, hs, As⟩ := walkingSpeedF64_approx ha h0 hd1 hd2
  -- averageSpeed * averageSpeed
  obtain ⟨ss, hss, Ass0⟩ := approx_round (approx_mul As As (by norm_num)) (by norm_num)
    (by norm_num) (by norm_num)
  have Ass := approx_mono Ass0 (show _ ≤ 19 * (2 : ℚ) ^ (-53 : Int) by norm_num)
    (le_refl _) (le_refl _)
  -- / height
  obtain ⟨q, hq, Aq0⟩ := approx_round
    (approx_div Ass Ah (by norm_num) (by norm_num) (by norm_num)) (by norm_num)
    (by norm_num) (by norm_num)
  have Aq := approx_mono Aq0 (show _ ≤ 21 * (2 : ℚ) ^ (-53 : Int) by norm_num)
    (le_refl _) (le_refl _)
  -- * walkingSpeedHeightMultiplier
  have A29 : Approx 0 (-6) (-5) walkingSpeedHeightMultiplier walkingSpeedHeightMultiplier :=
    approx_exact_pos (by norm_num [walkingSpeedHeightMultiplier])
      (by norm_num [walkingSpeedHeightMultiplier]) (by norm_num [walkingSpeedHeightMultiplier])
  obtain ⟨c29, hc29, Ac29⟩ := approx_round A29 (by norm_num) (by norm_num) (by norm_num)
  obtain ⟨t2, ht2, At20⟩ := approx_round (approx_mul Aq Ac29 (by norm_num)) (by norm_num)
    (by norm_num) (by norm_num)
  have At2 := approx_mono At20 (show _ ≤ 25 * (2 : ℚ) ^ (-53 : Int) by norm_num)
    (le_refl _) (le_refl _)
  -- * weight
  obtain ⟨t3, ht3, At30⟩ := approx_round (approx_mul At2 Aw (by norm_num)) (by norm_num)
    (by norm_num) (by norm_num)
  have At3 := approx_mono At30 (show _ ≤ 27 * (2 : ℚ) ^ (-53 : Int) by norm_num)
    (le_refl _) (le_refl _)
  -- walkingCaloriesWeightMultiplier * weight
  have A35 : Approx 0 (-5) (-4) walkingCaloriesWeightMultiplier walkingCaloriesWeightMultiplier :=
    approx_exact_pos (by norm_num [walkingCaloriesWeightMultiplier])
      (by norm_num [walkingCaloriesWeightMultiplier])
      (by norm_num [walkingCaloriesWeightMultiplier])
  obtain ⟨c35, hc35, Ac35⟩ := approx_round A35 (by norm_num) (by norm_num) (by norm_num)
  obtain ⟨t1, ht1, At1⟩ := approx_round (approx_mul Ac35 Aw (by norm_num)) (by norm_num)
    (by norm_num) (by norm_num)
  -- the sum
  have hS : (a : ℚ) * lenStep / (d * 3600) ≠ 0 := by
    have ha2 : (a : ℚ) ≠ 0 := by exact_mod_cast h0
    exact div_ne_zero (mul_ne_zero ha2 (by norm_num [lenStep]))
      (mul_ne_zero (ne_of_gt hdpos) (by norm_num))
  have hsame : 0 < walkingCaloriesWeightMultiplier * w
      * ((a : ℚ) * lenStep / (d * 3600) * ((a : ℚ) * lenStep / (d * 3600)) / h
          * walkingSpeedHeightMultiplier * w) := by
    have e : walkingCaloriesWeightMultiplier * w
        * ((a : ℚ) * lenStep / (d * 3600) * ((a : ℚ) * lenStep / (d * 3600)) / h
            * walkingSpeedHeightMultiplier * w)
        = walkingCaloriesWeightMultiplier * walkingSpeedHeightMultiplier * (w * w)
          * (((a : ℚ) * lenStep / (d * 3600) * ((a : ℚ) * lenStep / (d * 3600))) / h) := by
      ring
    rw [e]
    have k1 : 0 < w * w := mul_self_pos.mpr hwne
    have k2 : 0 < (a : ℚ) * lenStep / (d * 3600) * ((a : ℚ) * lenStep / (d * 3600)) :=
      mul_self_pos.mpr hS
    have k3 : (0 : ℚ) < walkingCaloriesWeightMultiplier * walkingSpeedHeightMultiplier := by
      norm_num [walkingCaloriesWeightMultiplier, walkingSpeedHeightMultiplier]
    exact mul_pos (mul_pos k3 k1) (div_pos k2 hhpos)
  obtain ⟨sm, hsm, Asm0⟩ := approx_round
    (approx_add (γ := 27 * (2 : ℚ) ^ (-53 : Int)) (Q := 499) At1 At3 hsame (by norm_num)
      (by norm_num) (by norm_num) (by norm_num))
    (by norm_num) (by norm_num) (by norm_num)
  have Asm := approx_mono Asm0 (show _ ≤ 29 * (2 : ℚ) ^ (-53 : Int) by norm_num)
    (le_refl _) (le_refl _)
  -- * duration
  obtain ⟨r1, hr1, Ar10⟩ := approx_round (approx_mul Asm Ad (by norm_num)) (by norm_num)
    (by norm_num) (by norm_num)
  have Ar1 := approx_mono Ar10 (show _ ≤ 31 * (2 : ℚ) ^ (-53 : Int) by norm_num)
    (le_refl _) (le_refl _)
  -- * minInH
  have A60 : Approx 0 5 6 minInH minInH :=
    approx_exact_pos (by norm_num [minInH]) (by norm_num [minInH]) (by norm_num [minInH])
  obtain ⟨c60, hc60, Ac60⟩ := approx_round A60 (by norm_num) (by norm_num) (by norm_num)
  obtain ⟨r, hr, Ar0⟩ := approx_round (approx_mul Ar1 Ac60 (by norm_num)) (by norm_num)
    (by norm_num) (by norm_num)
  refine ⟨r, ?_, approx_mono Ar0 (by norm_num) (by norm_num) (by norm_num)⟩
  rw [WalkingSpentCaloriesF64, if_neg (not_le.mpr hdpos)]
  simp only [hs, XFloat.round_fin_mul, hss, XFloat.round_fin_div ss (ne_of_gt hhpos), hq, hc29,
    ht2, ht3, hc35, ht1, XFloat.round_fin_add, hsm, hr1, hc60, hr]

theorem speed_targets_eq (a : Int) {d : ℚ} (hd : d ≠ 0) :
    distance a / d * 1000 / 3600 = (a : ℚ) * lenStep / (d * 3600) := by
  simp only [distance, mInKm]; field_simp; ring

theorem scaledMeanSpeed_approx {a : Int} {d m : ℚ} (hd : d ≠ 0)
    (Am : Approx ((2 : ℚ) ^ (-49 : Int)) (-111) 154 m (distance a / d)) :
    Approx ((2 : ℚ) ^ (-49 : Int)) (-114) 153 (m * 1000 / 3600)
      ((a : ℚ) * lenStep / (d * 3600)) := by
  have A1000 : Approx 0 9 10 (1000 : ℚ) 1000 :=
    approx_exact_pos (by norm_num) (by norm_num) (by norm_num)
  have A3600 : Approx 0 11 12 (3600 : ℚ) 3600 :=
    approx_exact_pos (by norm_num) (by norm_num) (by norm_num)
  have h := approx_div (approx_mul Am A1000 (by norm_num)) A3600 (by norm_num) (by norm_num)
    (by norm_num)
  rw [speed_targets_eq a hd] at h
  exact approx_mono h (by norm_num) (by norm_num) (by norm_num)

theorem caloriesFormula_approx {a : Int} {d w h m : ℚ} (h0 : a ≠ 0)
    (hd1 : (2 : ℚ) ^ (-100 : Int) ≤ d) (hd2 : d ≤ (2 : ℚ) ^ (100 : Int))
    (hw1 : (2 : ℚ) ^ (-100 : Int) ≤ |w|) (hw2 : |w| ≤ (2 : ℚ) ^ (100 : Int))
    (hh1 : (2 : ℚ) ^ (-100 : Int) ≤ h) (hh2 : h ≤ (2 : ℚ) ^ (100 : Int))
    (Am : Approx ((2 : ℚ) ^ (-49 : Int)) (-111) 154 m (distance a / d)) :
    Approx (33 * (2 : ℚ) ^ (-53 : Int)) (-205) 608
      ((0.035 * w + ((m * 1000 / 3600) ^ 2 / h) * 0.029 * w) * d * 60)
      ((walkingCaloriesWeightMultiplier * w
          + ((a : ℚ) * lenStep / (d * 3600) * ((a : ℚ) * lenStep / (d * 3600)) / h
              * walkingSpeedHeightMultiplier * w)) * d * minInH) := by
  have hdpos : 0 < d := lt_of_lt_of_le (by positivity) hd1
  have hhpos : 0 < h := lt_of_lt_of_le (by positivity) hh1
  have hwne : w ≠ 0 := abs_pos.mp (lt_of_lt_of_le (by positivity) hw1)
  have Ad : Approx 0 (-100) 100 d d := approx_exact_pos hdpos hd1 hd2
  have Ah : Approx 0 (-100) 100 h h := approx_exact_pos hhpos hh1 hh2
  have Aw : Approx 0 (-100) 100 w w := approx_weight hw1 hw2
  have As := scaledMeanSpeed_approx (ne_of_gt hdpos) Am
  have A29 : Approx 0 (-6) (-5) walkingSpeedHeightMultiplier walkingSpeedHeightMultiplier :=
    approx_exact_pos (by norm_num [walkingSpeedHeightMultiplier])
      (by norm_num [walkingSpeedHeightMultiplier]) (by norm_num [walkingSpeedHeightMultiplier])
  have A35 : Approx 0 (-5) (-4) walkingCaloriesWeightMultiplier walkingCaloriesWeightMultiplier :=
    approx_exact_pos (by norm_num [walkingCaloriesWeightMultiplier])
      (by norm_num [walkingCaloriesWeightMultiplier])
      (by norm_num [walkingCaloriesWeightMultiplier])
  have A60 : Approx 0 5 6 minInH minInH :=
    approx_exact_pos (by norm_num [minInH]) (by norm_num [minInH]) (by norm_num [minInH])
  have At3 := approx_mul (approx_mul
    (approx_div (approx_mul As As (by norm_num)) Ah (by norm_num) (by norm_num) (by norm_num))
    A29 (by norm_num)) Aw (by norm_num)
  have At1 := approx_mul A35 Aw (by norm_num)
  have hS : (a : ℚ) * lenStep / (d * 3600) ≠ 0 := by
    have ha2 : (a : ℚ) ≠ 0 := by exact_mod_cast h0
    exact div_ne_zero (mul_ne_zero ha2 (by norm_num [lenStep]))
      (mul_ne_zero (ne_of_gt hdpos) (by norm_num))
  have hsame : 0 < walkingCaloriesWeightMultiplier * w
      * ((a : ℚ) * lenStep / (d * 3600) * ((a : ℚ) * lenStep / (d * 3600)) / h
          * walkingSpeedHeightMultiplier * w) := by
    have e : walkingCaloriesWeightMultiplier * w
        * ((a : ℚ) * lenStep / (d * 3600) * ((a : ℚ) * lenStep / (d * 3600)) / h
            * walkingSpeedHeightMultiplier * w)
        = walkingCaloriesWeightMultiplier * walkingSpeedHeightMultiplier * (w * w)
          * (((a : ℚ) * lenStep / (d * 3600) * ((a : ℚ) * lenStep / (d * 3600))) / h) := by
      ring
    rw [e]
    have k1 : 0 < w * w := mul_self_pos.mpr hwne
    have k2 : 0 < (a : ℚ) * lenStep / (d * 3600) * ((a : ℚ) * lenStep / (d * 3600)) :=
      mul_self_pos.mpr hS
    have k3 : (0 : ℚ) < walkingCaloriesWeightMultiplier * walkingSpeedHeightMultiplier := by
      norm_num [walkingCaloriesWeightMultiplier, walkingSpeedHeightMultiplier]
    exact mul_pos (mul_pos k3 k1) (div_pos k2 hhpos)
  have Asum := approx_add (γ := 33 * (2 : ℚ) ^ (-53 : Int)) (Q := 501) At1 At3 hsame
    (by norm_num) (by norm_num) (by norm_num) (by norm_num)
  have Ar := approx_mul (approx_mul Asum Ad (by norm_num)) A60 (by norm_num)
  have e : (0.035 * w + ((m * 1000 / 3600) ^ 2 / h) * 0.029 * w) * d * 60
      = (walkingCaloriesWeightMultiplier * w
          + (m * 1000 / 3600 * (m * 1000 / 3600) / h * walkingSpeedHeightMultiplier * w))
        * d * minInH := by
    simp only [walkingCaloriesWeightMultiplier, walkingSpeedHeightMultiplier, minInH]; ring
  rw [e]
  exact approx_mono Ar (by norm_num) (by norm_num) (by norm_num)

/-! ## Claims -/

/-- C1, as stated, fails in `float64`: `distance 1 + distance 2` is `0.00195` (the sum is
exact) while `distance 3` is the next `float64` above it, so additivity fails at
`a = 1`, `b = 2`; `distance 3 - distance 2` (exact as well) is not the `float64` constant
`0.00065`, so the step fails at `a = 2`; and `distance (2 ^ 54 + 1) = distance (2 ^ 54)`,
a step of `0`. -/
theorem distance_not_linear :
    distanceF64 1 = XFloat.fin (1498797955988901 / 2 ^ 61)
      ∧ distanceF64 2 = XFloat.fin (1498797955988901 / 2 ^ 60)
      ∧ distanceF64 3 = XFloat.fin (8992787735933407 / 2 ^ 62)
      ∧ (distanceF64 1 + distanceF64 2).round
          = XFloat.fin (4496393867966703 / 2 ^ 61)
      ∧ (distanceF64 1 + distanceF64 2).round ≠ distanceF64 (1 + 2)
      ∧ roundF64 (8992787735933407 / 2 ^ 62
            - 1498797955988901 / 2 ^ 60)
          = XFloat.fin (2997595911977803 / 2 ^ 62)
      ∧ roundF64 0.00065 = XFloat.fin (1498797955988901 / 2 ^ 61)
      ∧ (2997595911977803 / 2 ^ 62 : ℚ)
          ≠ 1498797955988901 / 2 ^ 61
      ∧ fitsInt64 18014398509481985
      ∧ distanceF64 (18014398509481984 + 1) = distanceF64 18014398509481984 := by
  have h1 : distanceF64 1 = XFloat.fin (1498797955988901 / 2 ^ 61) :=
    distanceF64_eval 1 _ _ (by norm_num) roundF64_int_1 (by norm_num) roundF64_step_1
      (by norm_num) roundF64_km_1
  have h2 : distanceF64 2 = XFloat.fin (1498797955988901 / 2 ^ 60) :=
    distanceF64_eval 2 _ _ (by norm_num) roundF64_int_2 (by norm_num) roundF64_step_2
      (by norm_num) roundF64_km_2
  have h3 : distanceF64 3 = XFloat.fin (8992787735933407 / 2 ^ 62) :=
    distanceF64_eval 3 _ _ (by norm_num) roundF64_int_3 (by norm_num) roundF64_step_3
      (by norm_num) roundF64_km_3
  have hb : distanceF64 18014398509481984 = XFloat.fin (1498797955988901 / 128) :=
    distanceF64_eval 18014398509481984 _ _ (by norm_num) roundF64_int_big (by norm_num)
      roundF64_step_big (by norm_num) roundF64_km_big
  have hb1 : distanceF64 (18014398509481984 + 1) = XFloat.fin (1498797955988901 / 128) :=
    distanceF64_eval 18014398509481985 _ _ (by norm_num) roundF64_int_bigSucc (by norm_num)
      roundF64_step_bigSucc (by norm_num) roundF64_km_bigSucc
  have hsum : (distanceF64 1 + distanceF64 2).round
      = XFloat.fin (4496393867966703 / 2 ^ 61) := by
    rw [h1, h2, XFloat.fin_add]
    show roundF64 _ = _
    have e : (1498797955988901 / 2 ^ 61 : ℚ)
        + 1498797955988901 / 2 ^ 60
        = 4496393867966703 / 2 ^ 61 := by norm_num
    rw [e]; exact roundF64_sum_1_2
  refine ⟨h1, h2, h3, hsum, ?_, ?_, ?_, by norm_num, by decide, ?_⟩
  · rw [hsum, show ((1 : Int) + 2) = 3 from rfl, h3]
    intro h
    have h' := XFloat.fin.inj h
    norm_num at h'
  · have e : (8992787735933407 / 2 ^ 62 : ℚ)
        - 1498797955988901 / 2 ^ 60
        = 2997595911977803 / 2 ^ 62 := by norm_num
    rw [e]; exact roundF64_diff_3_2
  · have e : (0.00065 : ℚ) = 13 / 20000 := by norm_num
    rw [e]; exact roundF64_step_const
  · rw [hb, hb1]

/-- C1, amended: for every 64-bit action count `a`, `distance a` in `float64`
(`float64(a) * 0.65 / 1000` with the conversion, the constant and both operations
rounded) is a finite number within relative error `2 ^ (-50)` of `a * 0.65 / 1000`, and
`distance 0 = 0`; so `distance` is linear with slope `0.00065` up to rounding only:
`distance (a + b)` differs from `distance a + distance b` by at most
`2 ^ (-50) * 0.00065 * (|a + b| + |a| + |b|)`, and `distance (a + 1) - distance a` from
`0.00065` by at most `2 ^ (-50) * 0.00065 * (|a + 1| + |a|)`. -/
theorem distance_linear_up_to_rounding (a b : Int) (ha : fitsInt64 a) (hb : fitsInt64 b)
    (hab : fitsInt64 (a + b)) (ha1 : fitsInt64 (a + 1)) :
    distanceF64 0 = XFloat.fin 0
      ∧ ∃ va vb vab va1 : ℚ, distanceF64 a = XFloat.fin va ∧ distanceF64 b = XFloat.fin vb
          ∧ distanceF64 (a + b) = XFloat.fin vab ∧ distanceF64 (a + 1) = XFloat.fin va1
          ∧ |va - (a : ℚ) * 0.65 / 1000| ≤ (2 : ℚ) ^ (-50 : Int) * |(a : ℚ) * 0.65 / 1000|
          ∧ |vab - (va + vb)|
              ≤ (2 : ℚ) ^ (-50 : Int) * 0.00065 * (|((a + b : Int) : ℚ)| + |(a : ℚ)| + |(b : ℚ)|)
          ∧ |va1 - va - 0.00065|
              ≤ (2 : ℚ) ^ (-50 : Int) * 0.00065 * (|((a + 1 : Int) : ℚ)| + |(a : ℚ)|) := by
  obtain ⟨va, hva, ea⟩ := distanceF64_near ha
  obtain ⟨vb, hvb, eb⟩ := distanceF64_near hb
  obtain ⟨vab, hvab, eab⟩ := distanceF64_near hab
  obtain ⟨va1, hva1, ea1⟩ := distanceF64_near ha1
  have habs : ∀ n : Int, |distance n| = 0.00065 * |(n : ℚ)| := by
    intro n
    rw [distance_eq, show (n : ℚ) * 0.65 / 1000 = 0.00065 * (n : ℚ) by ring, abs_mul]
    norm_num
  have hadd : distance (a + b) = distance a + distance b := by
    simp only [distance]; push_cast; ring
  have hstep : distance (a + 1) = distance a + 0.00065 := by
    simp only [distance, lenStep, mInKm]; push_cast; ring
  rw [habs] at ea eb eab ea1
  refine ⟨distanceF64_zero, va, vb, vab, va1, hva, hvb, hvab, hva1, ?_, ?_, ?_⟩
  · rw [← distance_eq, habs]; exact ea
  · have e : vab - (va + vb)
        = (vab - distance (a + b)) - (va - distance a) - (vb - distance b) := by
      rw [hadd]; ring
    rw [e]
    have t1 := abs_sub ((vab - distance (a + b)) - (va - distance a)) (vb - distance b)
    have t2 := abs_sub (vab - distance (a + b)) (va - distance a)
    have e2 : (2 : ℚ) ^ (-50 : Int) * 0.00065 * (|((a + b : Int) : ℚ)| + |(a : ℚ)| + |(b : ℚ)|)
        = (2 : ℚ) ^ (-50 : Int) * (0.00065 * |((a + b : Int) : ℚ)|)
          + (2 : ℚ) ^ (-50 : Int) * (0.00065 * |(a : ℚ)|)
          + (2 : ℚ) ^ (-50 : Int) * (0.00065 * |(b : ℚ)|) := by ring
    rw [e2]
    linarith
  · have e : va1 - va - 0.00065 = (va1 - distance (a + 1)) - (va - distance a) := by
      rw [hstep]; ring
    rw [e]
    have t2 := abs_sub (va1 - distance (a + 1)) (va - distance a)
    have e2 : (2 : ℚ) ^ (-50 : Int) * 0.00065 * (|((a + 1 : Int) : ℚ)| + |(a : ℚ)|)
        = (2 : ℚ) ^ (-50 : Int) * (0.00065 * |((a + 1 : Int) : ℚ)|)
          + (2 : ℚ) ^ (-50 : Int) * (0.00065 * |(a : ℚ)|) := by ring
    rw [e2]
    linarith

theorem distance_linear_up_to_rounding_witness :
    fitsInt64 1 ∧ fitsInt64 2 ∧ fitsInt64 (1 + 2) ∧ fitsInt64 (1 + 1)
      ∧ distanceF64 0 = XFloat.fin 0
      ∧ ∃ va vb vab va1 : ℚ, distanceF64 1 = XFloat.fin va ∧ distanceF64 2 = XFloat.fin vb
          ∧ distanceF64 (1 + 2) = XFloat.fin vab ∧ distanceF64 (1 + 1) = XFloat.fin va1
          ∧ |va - ((1 : Int) : ℚ) * 0.65 / 1000|
              ≤ (2 : ℚ) ^ (-50 : Int) * |((1 : Int) : ℚ) * 0.65 / 1000|
          ∧ |vab - (va + vb)|
              ≤ (2 : ℚ) ^ (-50 : Int) * 0.00065
                  * (|((1 + 2 : Int) : ℚ)| + |((1 : Int) : ℚ)| + |((2 : Int) : ℚ)|)
          ∧ |va1 - va - 0.00065|
              ≤ (2 : ℚ) ^ (-50 : Int) * 0.00065 * (|((1 + 1 : Int) : ℚ)| + |((1 : Int) : ℚ)|) :=
  ⟨by decide, by decide, by decide, by decide,
    distance_linear_up_to_rounding 1 2 (by decide) (by decide) (by decide) (by decide)⟩

/-- C2: for a duration `d ≤ 0`, `RunningSpentCalories` returns exactly `0`, whatever the
action count and the weight. -/
theorem running_zero_of_nonpos_duration (a : Int) (w d : ℚ) (hd : d ≤ 0) :
    RunningSpentCalories a w d = some 0 :=
  running_of_nonpos a w hd

theorem running_zero_of_nonpos_duration_witness :
    (-1 : ℚ) ≤ 0 ∧ RunningSpentCalories 1000 70 (-1) = some 0 :=
  ⟨by norm_num, running_zero_of_nonpos_duration 1000 70 (-1) (by norm_num)⟩

/-- C3: for a duration `d ≤ 0`, `WalkingSpentCalories` and `SwimmingSpentCalories` return
exactly `0` for every value of the other arguments, height `0` included: the guard comes
before both quotients, so the result is a number and no quotient by the duration is taken. -/
theorem walking_swimming_zero_of_nonpos_duration (a l c : Int) (w h d : ℚ) (hd : d ≤ 0) :
    WalkingSpentCalories a d w h = some 0
      ∧ WalkingSpentCalories a d w 0 = some 0
      ∧ SwimmingSpentCalories l c d w = some 0 :=
  ⟨walking_of_nonpos a w h hd, walking_of_nonpos a w 0 hd, swimming_of_nonpos l c w hd⟩

theorem walking_swimming_zero_of_nonpos_duration_witness :
    (0 : ℚ) ≤ 0
      ∧ WalkingSpentCalories 1000 0 70 0 = some 0
      ∧ WalkingSpentCalories 1000 0 70 0 = some 0
      ∧ SwimmingSpentCalories 25 4 0 70 = some 0 :=
  ⟨le_refl 0, walking_swimming_zero_of_nonpos_duration 1000 25 4 70 0 0 (le_refl 0)⟩

/-- C4: at duration `0` both speed functions return `0` and take no quotient:
`meanSpeed a 0 = 0` and `swimmingMeanSpeed l c 0 = 0`. -/
theorem speeds_zero_at_zero_duration (a l c : Int) :
    meanSpeed a 0 = some 0 ∧ swimmingMeanSpeed l c 0 = some 0 := by
  simp [meanSpeed, swimmingMeanSpeed]

/-- C5, as stated, fails: at the negative duration `-1` the two speed functions return
`-0.65` and `-0.1`, not `0`. -/
theorem speeds_nonzero_at_negative_duration :
    (-1 : ℚ) ≤ 0
      ∧ meanSpeed 1000 (-1) = some (-0.65) ∧ meanSpeed 1000 (-1) ≠ some 0
      ∧ swimmingMeanSpeed 25 4 (-1) = some (-0.1) ∧ swimmingMeanSpeed 25 4 (-1) ≠ some 0 := by
  have h1 : meanSpeed 1000 (-1) = some (-0.65) := by
    rw [meanSpeed_of_ne 1000 (by norm_num)]; norm_num [distance, lenStep, mInKm]
  have h2 : swimmingMeanSpeed 25 4 (-1) = some (-0.1) := by
    rw [swimmingMeanSpeed_of_ne 25 4 (by norm_num)]; norm_num
  refine ⟨by norm_num, h1, ?_, h2, ?_⟩
  · rw [h1]; norm_num
  · rw [h2]; norm_num

/-- C5, amended: for a duration `d ≤ 0` the three calorie functions (guard `duration <= 0`)
return `0`; the two speed functions (guard `duration == 0`) return `0` at `d = 0`, and at
`d < 0` they return the quotients `distance a / d` and `l * c / 1000 / d`, so that they
return `0` exactly when `d = 0` or the numerator is `0`. -/
theorem duration_guards (a l c : Int) (w h d : ℚ) (hd : d ≤ 0) :
    RunningSpentCalories a w d = some 0
      ∧ WalkingSpentCalories a d w h = some 0
      ∧ SwimmingSpentCalories l c d w = some 0
      ∧ (d = 0 → meanSpeed a d = some 0 ∧ swimmingMeanSpeed l c d = some 0)
      ∧ (d < 0 → meanSpeed a d = some (distance a / d)
            ∧ swimmingMeanSpeed l c d = some ((l : ℚ) * (c : ℚ) / 1000 / d))
      ∧ (meanSpeed a d = some 0 ↔ d = 0 ∨ a = 0)
      ∧ (swimmingMeanSpeed l c d = some 0 ↔ d = 0 ∨ l = 0 ∨ c = 0) := by
  refine ⟨running_of_nonpos a w hd, walking_of_nonpos a w h hd, swimming_of_nonpos l c w hd,
    ?_, ?_, ?_, ?_⟩
  · rintro rfl
    simp [meanSpeed, swimmingMeanSpeed]
  · intro hlt
    exact ⟨meanSpeed_of_ne a (ne_of_lt hlt), swimmingMeanSpeed_of_ne l c (ne_of_lt hlt)⟩
  · by_cases h0 : d = 0
    · simp [meanSpeed, h0]
    · rw [meanSpeed_of_ne a h0]
      have h65 : (0.65 : ℚ) ≠ 0 := by norm_num
      simp [distance, lenStep, mInKm, h0, h65]
  · by_cases h0 : d = 0
    · simp [swimmingMeanSpeed, h0]
    · rw [swimmingMeanSpeed_of_ne l c h0]
      simp [h0]

theorem duration_guards_witness :
    (-1 : ℚ) ≤ 0
      ∧ (RunningSpentCalories 1000 70 (-1) = some 0
      ∧ WalkingSpentCalories 1000 (-1) 70 170 = some 0
      ∧ SwimmingSpentCalories 25 4 (-1) 70 = some 0
      ∧ ((-1 : ℚ) = 0 → meanSpeed 1000 (-1) = some 0 ∧ swimmingMeanSpeed 25 4 (-1) = some 0)
      ∧ ((-1 : ℚ) < 0 → meanSpeed 1000 (-1) = some (distance 1000 / (-1))
            ∧ swimmingMeanSpeed 25 4 (-1) = some (((25 : Int) : ℚ) * ((4 : Int) : ℚ) / 1000 / (-1)))
      ∧ (meanSpeed 1000 (-1) = some 0 ↔ (-1 : ℚ) = 0 ∨ (1000 : Int) = 0)
      ∧ (swimmingMeanSpeed 25 4 (-1) = some 0 ↔ (-1 : ℚ) = 0 ∨ (25 : Int) = 0 ∨ (4 : Int) = 0)) :=
  ⟨by norm_num, duration_guards 1000 25 4 70 170 (-1) (by norm_num)⟩

/-- C6: for a duration `d ≠ 0`, `meanSpeed a d` is `distance a / d`, that is
`(a * 0.65 / 1000) / d`. -/
theorem meanSpeed_eq_distance_div (a : Int) (d : ℚ) (hd : d ≠ 0) :
    meanSpeed a d = some (distance a / d)
      ∧ meanSpeed a d = some ((a : ℚ) * 0.65 / 1000 / d) := by
  refine ⟨meanSpeed_of_ne a hd, ?_⟩
  rw [meanSpeed_of_ne a hd, distance_eq]

theorem meanSpeed_eq_distance_div_witness :
    (2 : ℚ) ≠ 0
      ∧ meanSpeed 1000 2 = some (distance 1000 / 2)
      ∧ meanSpeed 1000 2 = some (((1000 : Int) : ℚ) * 0.65 / 1000 / 2) :=
  ⟨by norm_num, meanSpeed_eq_distance_div 1000 2 (by norm_num)⟩

/-- C7: for a duration `d > 0`, the shared `meanSpeed a d` is a number `s` (namely
`distance a / d`) and `RunningSpentCalories a w d` is `(18 * s + 1.79) * w * d * 60`. -/
theorem running_formula (a : Int) (w d : ℚ) (hd : 0 < d) :
    ∃ s : ℚ, meanSpeed a d = some s ∧ s = distance a / d
      ∧ RunningSpentCalories a w d = some ((18 * s + 1.79) * w * d * 60) := by
  have hne : d ≠ 0 := ne_of_gt hd
  refine ⟨distance a / d, meanSpeed_of_ne a hne, rfl, ?_⟩
  have hguard : ¬ d ≤ 0 := not_le.mpr hd
  simp [RunningSpentCalories, hguard, meanSpeed_of_ne a hne,
    runningCaloriesMeanSpeedMultiplier, runningCaloriesMeanSpeedShift, minInH]

theorem running_formula_witness :
    (0 : ℚ) < 1
      ∧ ∃ s : ℚ, meanSpeed 1000 1 = some s ∧ s = distance 1000 / 1
          ∧ RunningSpentCalories 1000 70 1 = some ((18 * s + 1.79) * 70 * 1 * 60) :=
  ⟨by norm_num, running_formula 1000 70 1 (by norm_num)⟩

/-- C8: for a height `h ≠ 0` and a duration `d > 0`, neither divisor (`d * 3600`, `h`) is
zero and `WalkingSpentCalories a d w h` is `(0.035 * w + (s * s / h) * 0.029 * w) * d * 60`
with `s = a * 0.65 / (d * 3600)`: the height divides the squared speed as given. -/
theorem walking_formula (a : Int) (d w h : ℚ) (hh : h ≠ 0) (hd : 0 < d) :
    d * 3600 ≠ 0 ∧ h ≠ 0
      ∧ WalkingSpentCalories a d w h
          = some ((0.035 * w
              + (((a : ℚ) * 0.65 / (d * 3600)) * ((a : ℚ) * 0.65 / (d * 3600)) / h) * 0.029 * w)
              * d * 60) := by
  have hne : d * 3600 ≠ 0 := mul_ne_zero (ne_of_gt hd) (by norm_num)
  refine ⟨hne, hh, ?_⟩
  have hguard : ¬ d ≤ 0 := not_le.mpr hd
  simp [WalkingSpentCalories, hguard, fdiv_of_ne _ hne, fdiv_of_ne _ hh, lenStep,
    walkingCaloriesWeightMultiplier, walkingSpeedHeightMultiplier, minInH]

theorem walking_formula_witness :
    (170 : ℚ) ≠ 0 ∧ (0 : ℚ) < 1 ∧ ((1 : ℚ) * 3600 ≠ 0 ∧ (170 : ℚ) ≠ 0
      ∧ WalkingSpentCalories 1000 1 70 170
          = some ((0.035 * 70
              + ((((1000 : Int) : ℚ) * 0.65 / (1 * 3600)) * (((1000 : Int) : ℚ) * 0.65 / (1 * 3600))
                  / 170) * 0.029 * 70)
              * 1 * 60)) :=
  ⟨by norm_num, by norm_num, walking_formula 1000 1 70 170 (by norm_num) (by norm_num)⟩

/-- C9: for a duration `d ≠ 0`, `swimmingMeanSpeed l c d` is `l * c / 1000 / d` with the
product `l * c` the exact integer product; `swimmingMeanSpeed 25 4 1 = 0.1`. -/
theorem swimmingMeanSpeed_formula (l c : Int) (d : ℚ) (hd : d ≠ 0) :
    swimmingMeanSpeed l c d = some (((l * c : Int) : ℚ) / 1000 / d)
      ∧ swimmingMeanSpeed 25 4 1 = some 0.1 := by
  constructor
  · rw [swimmingMeanSpeed_of_ne l c hd]; push_cast; rfl
  · rw [swimmingMeanSpeed_of_ne 25 4 one_ne_zero]; norm_num

theorem swimmingMeanSpeed_formula_witness :
    (2 : ℚ) ≠ 0
      ∧ swimmingMeanSpeed 50 3000000000000000000 2
          = some (((50 * 3000000000000000000 : Int) : ℚ) / 1000 / 2)
      ∧ swimmingMeanSpeed 25 4 1 = some 0.1 :=
  ⟨by norm_num, swimmingMeanSpeed_formula 50 3000000000000000000 2 (by norm_num)⟩

/-- C10: when the product `l * c` fits in a 64-bit `int` and the duration is `d > 0`,
`SwimmingSpentCalories l c d w` is `(avgSpeed + 1.1) * 2 * w * d` with
`avgSpeed = (l * c / 1000) / d`. -/
theorem swimming_formula (l c : Int) (d w : ℚ) (hfit : fitsInt64 (l * c)) (hd : 0 < d) :
    SwimmingSpentCalories l c d w
      = some ((((l * c : Int) : ℚ) / 1000 / d + 1.1) * 2 * w * d) := by
  have hne : d ≠ 0 := ne_of_gt hd
  have hguard : ¬ d ≤ 0 := not_le.mpr hd
  simp [SwimmingSpentCalories, hguard, fdiv_of_ne _ hne, wrapInt64_of_fits hfit,
    swimmingCaloriesMeanSpeedShift, swimmingCaloriesWeightMultiplier]

theorem swimming_formula_witness :
    fitsInt64 (25 * 4) ∧ (0 : ℚ) < 1
      ∧ SwimmingSpentCalories 25 4 1 70
          = some ((((25 * 4 : Int) : ℚ) / 1000 / 1 + 1.1) * 2 * 70 * 1) :=
  ⟨by decide, by norm_num, swimming_formula 25 4 1 70 (by decide) (by norm_num)⟩

/-- C11: for a training type that is none of the three labels, `ShowTrainingInfo` returns
the fixed string "неизвестный тип тренировки" whatever the other six arguments are; the
call `(100, "Unknown", 1.0, 70.0, 170.0, 0, 0)` returns it. -/
theorem unknown_type_returns_sentinel (a : Int) (t : String) (d w h : ℚ) (l c : Int)
    (h1 : t ≠ "Бег") (h2 : t ≠ "Ходьба") (h3 : t ≠ "Плавание") :
    ShowTrainingInfo a t d w h l c = "неизвестный тип тренировки"
      ∧ ShowTrainingInfo 100 "Unknown" 1 70 170 0 0 = "неизвестный тип тренировки" :=
  ⟨show_unknown a d w h l c h1 h2 h3,
    show_unknown 100 1 70 170 0 0 (by decide) (by decide) (by decide)⟩

theorem unknown_type_returns_sentinel_witness :
    ("Йога" : String) ≠ "Бег" ∧ ("Йога" : String) ≠ "Ходьба" ∧ ("Йога" : String) ≠ "Плавание"
      ∧ ShowTrainingInfo 4000 "Йога" 2 65 180 25 10 = "неизвестный тип тренировки"
      ∧ ShowTrainingInfo 100 "Unknown" 1 70 170 0 0 = "неизвестный тип тренировки" :=
  ⟨by decide, by decide, by decide,
    unknown_type_returns_sentinel 4000 "Йога" 2 65 180 25 10 (by decide) (by decide) (by decide)⟩

/-- C15, as stated, fails in `float64`: at `a = 385`, `d = 1` the speed of the walking
formula is `5009003585553185 / 2 ^ 56` (`0.06951388888888889`), while
`meanSpeed * 1000 / 3600` is `156531362048537 / 2 ^ 51` (`0.06951388888888888`) when
evaluated in `float64` and is no `float64` at all when evaluated exactly; and at
`a = 2 ^ 62`, `d = 2 ^ (-980)` both speeds overflow to `+Inf`, so they do not differ. -/
theorem walking_speed_not_exact :
    walkingSpeedF64 385 1 = XFloat.fin (5009003585553185 / 2 ^ 56)
      ∧ meanSpeedF64 385 1 = XFloat.fin (2254051613498933 / 2 ^ 53)
      ∧ ((meanSpeedF64 385 1 * roundF64 1000).round / roundF64 3600).round
          = XFloat.fin (156531362048537 / 2 ^ 51)
      ∧ walkingSpeedF64 385 1
          ≠ ((meanSpeedF64 385 1 * roundF64 1000).round / roundF64 3600).round
      ∧ (5009003585553185 / 2 ^ 56 : ℚ)
          ≠ 2254051613498933 / 2 ^ 53 * 1000 / 3600
      ∧ fitsInt64 4611686018427387904
      ∧ walkingSpeedF64 4611686018427387904 (1 / 2 ^ 980) = XFloat.posInf
      ∧ meanSpeedF64 4611686018427387904 (1 / 2 ^ 980) = XFloat.posInf := by
  have hp : (roundF64 ((385 : Int) : ℚ) * roundF64 lenStep).round = XFloat.fin (1001 / 4) :=
    stepProduct_eval 385 _ (by norm_num) roundF64_int_385 (by norm_num) roundF64_step_385
  have hdist : distanceF64 385 = XFloat.fin (2254051613498933 / 2 ^ 53) :=
    distanceF64_eval 385 _ _ (by norm_num) roundF64_int_385 (by norm_num) roundF64_step_385
      (by norm_num) roundF64_km_385
  have hs : walkingSpeedF64 385 1 = XFloat.fin (5009003585553185 / 2 ^ 56) := by
    rw [walkingSpeedF64, hp, roundF64_3600, XFloat.round_fin_mul, one_mul, roundF64_3600,
      XFloat.round_fin_div _ (by norm_num)]
    have e : (1001 / 4 : ℚ) / 3600 = 1001 / 14400 := by norm_num
    rw [e]; exact roundF64_walk_385
  have hm : meanSpeedF64 385 1 = XFloat.fin (2254051613498933 / 2 ^ 53) := by
    rw [meanSpeedF64, if_neg one_ne_zero]
    simp only [hdist, XFloat.round_fin_div _ (one_ne_zero : (1 : ℚ) ≠ 0), div_one]
    exact roundF64_mean_385
  have hm2 : ((meanSpeedF64 385 1 * roundF64 1000).round / roundF64 3600).round
      = XFloat.fin (156531362048537 / 2 ^ 51) := by
    rw [hm, roundF64_1000, XFloat.round_fin_mul, roundF64_3600]
    have e1 : (2254051613498933 / 2 ^ 53 : ℚ) * 1000
        = 281756451687366625 / 2 ^ 50 := by norm_num
    rw [e1, roundF64_mean1000_385, XFloat.round_fin_div _ (by norm_num)]
    have e2 : (8804889115230207 / 2 ^ 45 : ℚ) / 3600
        = 2934963038410069 / 42221246506598400 := by norm_num
    rw [e2]; exact roundF64_mean3600_385
  have hph : (roundF64 ((4611686018427387904 : Int) : ℚ) * roundF64 lenStep).round
      = XFloat.fin 2997595911977802240 :=
    stepProduct_eval 4611686018427387904 _ (by norm_num) roundF64_int_huge (by norm_num)
      roundF64_step_huge
  have hdh : distanceF64 4611686018427387904 = XFloat.fin 2997595911977802 :=
    distanceF64_eval 4611686018427387904 _ _ (by norm_num) roundF64_int_huge (by norm_num)
      roundF64_step_huge (by norm_num) roundF64_km_huge
  have hd0 : (1 / 2 ^ 980 : ℚ) ≠ 0 := by positivity
  refine ⟨hs, hm, hm2, ?_, by norm_num, by decide, ?_, ?_⟩
  · rw [hs, hm2]
    intro h
    have h' := XFloat.fin.inj h
    norm_num at h'
  · rw [walkingSpeedF64, hph, roundF64_3600, XFloat.round_fin_mul]
    have e : (1 / 2 ^ 980 : ℚ) * 3600 = 225 / 2 ^ 976 := by norm_num
    rw [e, roundF64_g_huge, XFloat.round_fin_div _ (by positivity)]
    exact roundF64_overflow (by norm_num)
  · rw [meanSpeedF64, if_neg hd0]
    simp only [hdh, XFloat.round_fin_div _ hd0]
    exact roundF64_overflow (by norm_num)

/-- C15, amended: for every 64-bit action count `a ≠ 0` and every duration between
`2 ^ (-100)` and `2 ^ 100` hours, the speed `s` that `WalkingSpentCalories` computes in
`float64` and `m = meanSpeed a d` are finite and different, and `s` agrees with
`m * 1000 / 3600` up to a relative rounding error of `2 ^ (-48)`, not exactly; hence for
a weight and a height of size between `2 ^ (-100)` and `2 ^ 100`, the height positive,
`WalkingSpentCalories a d w h` agrees with
`(0.035 * w + ((m * 1000 / 3600) ^ 2 / h) * 0.029 * w) * d * 60` up to a relative
rounding error of `2 ^ (-46)`. -/
theorem walking_speed_vs_meanSpeed (a : Int) (d w h : ℚ) (ha : fitsInt64 a) (h0 : a ≠ 0)
    (hd1 : (2 : ℚ) ^ (-100 : Int) ≤ d) (hd2 : d ≤ (2 : ℚ) ^ (100 : Int)) :
    ∃ s m : ℚ, walkingSpeedF64 a d = XFloat.fin s ∧ meanSpeedF64 a d = XFloat.fin m
      ∧ s ≠ m
      ∧ |s - m * 1000 / 3600| ≤ (2 : ℚ) ^ (-48 : Int) * |m * 1000 / 3600|
      ∧ ((2 : ℚ) ^ (-100 : Int) ≤ |w| → |w| ≤ (2 : ℚ) ^ (100 : Int)
          → (2 : ℚ) ^ (-100 : Int) ≤ h → h ≤ (2 : ℚ) ^ (100 : Int)
          → ∃ r : ℚ, WalkingSpentCaloriesF64 a d w h = XFloat.fin r
              ∧ |r - (0.035 * w + ((m * 1000 / 3600) ^ 2 / h) * 0.029 * w) * d * 60|
                  ≤ (2 : ℚ) ^ (-46 : Int)
                      * |(0.035 * w + ((m * 1000 / 3600) ^ 2 / h) * 0.029 * w) * d * 60|) := by
  have hdpos : 0 < d := lt_of_lt_of_le (by positivity) hd1
  obtain ⟨s, hs, As⟩ := walkingSpeedF64_approx ha h0 hd1 hd2
  obtain ⟨m, hm, Am⟩ := meanSpeedF64_approx ha h0 hd1 hd2
  have Am2 := scaledMeanSpeed_approx (ne_of_gt hdpos) Am
  refine ⟨s, m, hs, hm, ?_, ?_, ?_⟩
  · intro e
    have hMpos : 0 < |distance a / d| := lt_of_lt_of_le (by positivity) Am.2.1
    have hSM : |(a : ℚ) * lenStep / (d * 3600)| = 5 / 18 * |distance a / d| := by
      rw [← speed_targets_eq a (ne_of_gt hdpos),
        show distance a / d * 1000 / 3600 = 5 / 18 * (distance a / d) by ring, abs_mul]
      norm_num
    have h1 := approx_abs_le As
    have h2 := approx_abs_ge Am
    rw [hSM, e] at h1
    norm_num at h1 h2
    linarith
  · have hp := approx_pair As Am2 (by norm_num)
    refine le_trans hp (mul_le_mul_of_nonneg_right (by norm_num) (abs_nonneg _))
  · intro hw1 hw2 hh1 hh2
    obtain ⟨r, hr, Ar⟩ := WalkingSpentCaloriesF64_approx ha h0 hd1 hd2 hw1 hw2 hh1 hh2
    have AF := caloriesFormula_approx h0 hd1 hd2 hw1 hw2 hh1 hh2 Am
    have hp := approx_pair Ar AF (by norm_num)
    exact ⟨r, hr, le_trans hp (mul_le_mul_of_nonneg_right (by norm_num) (abs_nonneg _))⟩

theorem walking_speed_vs_meanSpeed_witness :
    fitsInt64 385 ∧ (385 : Int) ≠ 0
      ∧ ∃ s m r : ℚ, walkingSpeedF64 385 1 = XFloat.fin s ∧ meanSpeedF64 385 1 = XFloat.fin m
          ∧ s ≠ m
          ∧ |s - m * 1000 / 3600| ≤ (2 : ℚ) ^ (-48 : Int) * |m * 1000 / 3600|
          ∧ WalkingSpentCaloriesF64 385 1 70 170 = XFloat.fin r
          ∧ |r - (0.035 * 70 + ((m * 1000 / 3600) ^ 2 / 170) * 0.029 * 70) * 1 * 60|
              ≤ (2 : ℚ) ^ (-46 : Int)
                  * |(0.035 * 70 + ((m * 1000 / 3600) ^ 2 / 170) * 0.029 * 70) * 1 * 60| := by
  obtain ⟨s, m, hs, hm, hne, hclose, hcal⟩ :=
    walking_speed_vs_meanSpeed 385 1 70 170 (by decide) (by decide) (by norm_num) (by norm_num)
  obtain ⟨r, hr, hb⟩ := hcal (by norm_num [abs_of_pos]) (by norm_num [abs_of_pos])
    (by norm_num) (by norm_num)
  exact ⟨by decide, by decide, s, m, r, hs, hm, hne, hclose, hr, hb⟩

/-- C16, at a failing input: the pool length `4294967296` and the lap count `2147483648`
are both 64-bit `int`s, their product `2 ^ 63` is not; with `d = 1` and `w = 70` the speed
shown is `2 ^ 63 / 1000` while `SwimmingSpentCalories` computes with the wrapped product
`-(2 ^ 63)` and returns `(-(2 ^ 63) / 1000 + 1.1) * 2 * 70 * 1`, a negative number that
is not `(swimmingMeanSpeed + 1.1) * 2 * 70 * 1`. -/
theorem swimming_calories_wrap :
    fitsInt64 4294967296 ∧ fitsInt64 2147483648 ∧ ¬ fitsInt64 (4294967296 * 2147483648)
      ∧ swimmingMeanSpeed 4294967296 2147483648 1 = some (9223372036854775808 / 1000)
      ∧ SwimmingSpentCalories 4294967296 2147483648 1 70
          = some ((-9223372036854775808 / 1000 + 1.1) * 2 * 70 * 1)
      ∧ SwimmingSpentCalories 4294967296 2147483648 1 70
          ≠ some ((9223372036854775808 / 1000 + 1.1) * 2 * 70 * 1)
      ∧ ∃ r : ℚ, SwimmingSpentCalories 4294967296 2147483648 1 70 = some r ∧ r < 0 := by
  have hw : wrapInt64 (4294967296 * 2147483648) = -9223372036854775808 := by decide
  have hcal : SwimmingSpentCalories 4294967296 2147483648 1 70
      = some ((-9223372036854775808 / 1000 + 1.1) * 2 * 70 * 1) := by
    rw [swimming_of_pos 4294967296 2147483648 70 one_pos, hw]; norm_num
  refine ⟨by decide, by decide, by decide, ?_, hcal, ?_, _, hcal, by norm_num⟩
  · rw [swimmingMeanSpeed_of_ne 4294967296 2147483648 one_ne_zero]; norm_num
  · rw [hcal]; norm_num

/-- C17: `ShowTrainingInfo` returns "неизвестный тип тренировки" if and only if the type is
none of the three labels; for a recognised label and every value of the other six
arguments the string it returns differs from that one, begins with "Тип тренировки: "
and ends with a newline; the five-line layout has these three properties whatever
strings its four numbers print as. -/
theorem sentinel_iff_unknown (a : Int) (t : String) (d w h : ℚ) (l c : Int) :
    (ShowTrainingInfo a t d w h l c = "неизвестный тип тренировки"
        ↔ t ≠ "Бег" ∧ t ≠ "Ходьба" ∧ t ≠ "Плавание")
      ∧ (t = "Бег" ∨ t = "Ходьба" ∨ t = "Плавание" →
          ShowTrainingInfo a t d w h l c ≠ "неизвестный тип тренировки"
            ∧ (∃ rest : String, ShowTrainingInfo a t d w h l c = "Тип тренировки: " ++ rest)
            ∧ (∃ front : String, ShowTrainingInfo a t d w h l c = front ++ "\n"))
      ∧ (∀ n1 n2 n3 n4 : String,
          summaryLayout t n1 n2 n3 n4 ≠ "неизвестный тип тренировки"
            ∧ (∃ rest : String, summaryLayout t n1 n2 n3 n4 = "Тип тренировки: " ++ rest)
            ∧ (∃ front : String, summaryLayout t n1 n2 n3 n4 = front ++ "\n")) := by
  have hshape : t = "Бег" ∨ t = "Ходьба" ∨ t = "Плавание" →
      ShowTrainingInfo a t d w h l c ≠ "неизвестный тип тренировки"
        ∧ (∃ rest : String, ShowTrainingInfo a t d w h l c = "Тип тренировки: " ++ rest)
        ∧ (∃ front : String, ShowTrainingInfo a t d w h l c = front ++ "\n") := by
    intro ht
    obtain ⟨n1, n2, n3, n4, hs⟩ := show_shape a d w h l c ht
    rw [hs]
    exact summaryLayout_shape t n1 n2 n3 n4
  refine ⟨⟨fun hs => ?_, fun ⟨h1, h2, h3⟩ => show_unknown a d w h l c h1 h2 h3⟩, hshape,
    fun n1 n2 n3 n4 => summaryLayout_shape t n1 n2 n3 n4⟩
  by_contra hcon
  have ht : t = "Бег" ∨ t = "Ходьба" ∨ t = "Плавание" := by
    by_contra hno
    push_neg at hno
    exact hcon hno
  exact (hshape ht).1 hs

theorem sentinel_iff_unknown_witness :
    ShowTrainingInfo 1000 "Ходьба" 1 70 170 25 4 ≠ "неизвестный тип тренировки"
      ∧ (∃ rest : String, ShowTrainingInfo 1000 "Ходьба" 1 70 170 25 4 = "Тип тренировки: " ++ rest)
      ∧ (∃ front : String, ShowTrainingInfo 1000 "Ходьба" 1 70 170 25 4 = front ++ "\n")
      ∧ ¬ (("Ходьба" : String) ≠ "Бег" ∧ ("Ходьба" : String) ≠ "Ходьба"
            ∧ ("Ходьба" : String) ≠ "Плавание") := by
  obtain ⟨hiff, hrec, _⟩ := sentinel_iff_unknown 1000 "Ходьба" 1 70 170 25 4
  obtain ⟨h1, h2, h3⟩ := hrec (Or.inr (Or.inl rfl))
  exact ⟨h1, h2, h3, fun hno => h1 (hiff.mpr hno)⟩

end ftracker
